import Mathlib

/-!
Verification development for `pagmo::algorithm::gsl_nm`.

Shallow embedding of `src/algorithm/gsl_nm.cpp` (the Nelder-Mead local search wrapping
the GSL simplex minimiser) and theorems about its constructor and its `evolve` method.

Conventions of the embedding.

* A `double` is either NaN or a number, the numbers being the rationals.  Every comparison
  with NaN is false and arithmetic propagates NaN, as for IEEE doubles; rounding, overflow
  and the infinities are not modelled.
* `std::vector<double>` is a `List double`; `v[i]` is `v.getD i (.val 0)` and an
  assignment `v[i] = a` is `v.set i a`.
* C++ exceptions are values of `Exn`; a function that may throw returns `Except Exn _`.
  The objective function of a problem may throw.
* The GSL minimiser is a library outside the repository.  It is a parameter of the
  embedding (`fminimizer_type`); every call it makes to the objective callback is
  explicit (`FnEval`), so that the side effects of `gsl_nm_wrapper` on its parameter
  block, and an exception thrown through the callback, are kept exactly.
* The observable effects of one `evolve` call (allocation, release, objective
  evaluation, minimiser iteration, replacement in the population) are recorded in a
  trace of `Event`s, in program order.
-/

set_option linter.dupNamespace false

namespace pagmo

/-! ## Exceptions and machine integers -/

/-- The exceptions that the embedded code can raise. -/
inductive Exn
  | value_error
  | index_error
  | bad_alloc
  | negative_overflow
  | positive_overflow
  deriving DecidableEq, Repr

/-- Width in bits of `std::size_t` / `size_type`. -/
def SIZE_BITS : Nat := 64

/-- Largest value of `std::size_t`. -/
def SIZE_MAX : Nat := 2 ^ SIZE_BITS - 1

/-- Smallest value of `int`. -/
def INT_MIN : Int := -(2 ^ 31)

/-- Largest value of `int`. -/
def INT_MAX : Int := 2 ^ 31 - 1

/-- The conversion `boost::numeric_cast<std::size_t>(v)` of an `int`: it throws when the
value is not representable in the target type. -/
def numeric_cast_size_t (v : Int) : Except Exn Nat :=
  if v < 0 then .error .negative_overflow
  else if v > (SIZE_MAX : Int) then .error .positive_overflow
  else .ok v.toNat

/-- Subtraction of two `size_type` values (unsigned, wrapping). -/
def size_type_sub (a b : Nat) : Nat := (a + 2 ^ SIZE_BITS - b) % 2 ^ SIZE_BITS

/-! ## Doubles -/

/-- A value of type `double`: NaN, or a number. -/
inductive double
  | nan
  | val (q : ℚ)
  deriving DecidableEq

/-- Addition of doubles. -/
def double.add : double → double → double
  | .val a, .val b => .val (a + b)
  | _, _ => .nan

/-- Subtraction of doubles. -/
def double.sub : double → double → double
  | .val a, .val b => .val (a - b)
  | _, _ => .nan

/-- Multiplication of doubles. -/
def double.mul : double → double → double
  | .val a, .val b => .val (a * b)
  | _, _ => .nan

/-- Absolute value of a double (`fabs`). -/
def double.abs : double → double
  | .val a => .val |a|
  | .nan => .nan

/-- The comparison `a < b` of doubles: false when either side is NaN. -/
def double.lt : double → double → Prop
  | .val a, .val b => a < b
  | _, _ => False

/-- The comparison `a <= b` of doubles: false when either side is NaN. -/
def double.le : double → double → Prop
  | .val a, .val b => a ≤ b
  | _, _ => False

instance : Add double := ⟨double.add⟩

instance : Sub double := ⟨double.sub⟩

instance : Mul double := ⟨double.mul⟩

instance : LT double := ⟨double.lt⟩

instance : LE double := ⟨double.le⟩

instance double.decLt (a b : double) : Decidable (a < b) :=
  match a, b with
  | .val x, .val y => inferInstanceAs (Decidable (x < y))
  | .nan, _ => isFalse (fun h => h)
  | .val _, .nan => isFalse (fun h => h)

instance double.decLe (a b : double) : Decidable (a ≤ b) :=
  match a, b with
  | .val x, .val y => inferInstanceAs (Decidable (x ≤ y))
  | .nan, _ => isFalse (fun h => h)
  | .val _, .nan => isFalse (fun h => h)

/-! ## Data model -/

/-- The type `decision_vector` (`std::vector<double>`). -/
abbrev decision_vector := List double

/-- The type `fitness_vector` (`std::vector<double>`). -/
abbrev fitness_vector := List double

/-- The interface of `problem::base` read by `gsl_nm`: the four dimensions, the bounds
and the objective function, which may throw. -/
structure problem.base where
  get_dimension : Nat
  get_i_dimension : Nat
  get_f_dimension : Nat
  get_c_dimension : Nat
  get_lb : decision_vector
  get_ub : decision_vector
  objfun : decision_vector → Except Exn fitness_vector

/-- The type `population::individual_type`: current decision vector and its fitness. -/
structure individual_type where
  cur_x : decision_vector
  cur_f : fitness_vector

/-- A population: a problem and a container of individuals. -/
structure population where
  problem : problem.base
  container : List individual_type

/-- The method `population::size`. -/
def population.size (pop : population) : Nat := pop.container.length

/-- The method `population::get_individual`, read at an index in range. -/
def population.get_individual (pop : population) (idx : Nat) : individual_type :=
  pop.container.getD idx ⟨[], []⟩

/-- Scalar fitness of an individual (first component of its fitness vector). -/
def individual_type.fitness (ind : individual_type) : double := ind.cur_f.getD 0 (.val 0)

/-- Scan for the first individual of lowest fitness: `i` is the index of the head of the
list, `b` the best index so far and `fb` its fitness. -/
def best_from : List individual_type → Nat → Nat → double → Nat
  | [], _, b, _ => b
  | ind :: rest, i, b, fb =>
    if ind.fitness < fb then best_from rest (i + 1) i ind.fitness
    else best_from rest (i + 1) b fb

/-- Modelled from the spec: `population::get_best_idx` is declared in `population.h`,
which is not among the sources.  Per the Population Interface it returns the index of the
individual with the best fitness, lower fitness being better; the first such index is
taken. -/
def population.get_best_idx (pop : population) : Nat :=
  match pop.container with
  | [] => 0
  | ind :: rest => best_from rest 1 0 ind.fitness

/-- Modelled from the spec: `population::set_x` is declared in `population.h`, which is
not among the sources.  Per the Population Interface it replaces the decision vector of
the individual at `idx`, recomputes and stores its fitness, and fails with an invalid
index error when `idx` is out of range.  An exception of the objective function is
passed on. -/
def population.set_x (pop : population) (idx : Nat) (x : decision_vector) :
    Except Exn population :=
  if idx ≥ pop.size then .error .index_error
  else
    match pop.problem.objfun x with
    | .error e => .error e
    | .ok f => .ok { pop with container := pop.container.set idx ⟨x, f⟩ }

/-- The algorithm object: the three data members of `gsl_nm`. -/
structure gsl_nm where
  m_max_iter : Nat
  m_tol : double
  m_step_size : double
  deriving DecidableEq

/-- The constructor `gsl_nm::gsl_nm(int max_iter, const double &tol, const double
&step_size)`.  The member initialiser converts `max_iter` with `numeric_cast` before the
body checks `tol` and `step_size`. -/
def gsl_nm.gsl_nm (max_iter : Int) (tol step_size : double) : Except Exn gsl_nm :=
  match numeric_cast_size_t max_iter with
  | .error e => .error e
  | .ok m =>
    if tol ≤ .val 0 then .error .value_error
    else if step_size ≤ .val 0 then .error .value_error
    else .ok ⟨m, tol, step_size⟩

/-! ## Calls from the minimiser to the objective callback -/

/-- A computation of the GSL minimiser that may evaluate the objective callback
(`GSL_MULTIMIN_FN_EVAL`): either it is finished with a value, or it asks for the
objective at a point and continues with the value it receives. -/
inductive FnEval (α : Type) : Type
  | ret : α → FnEval α
  | eval : List double → (double → FnEval α) → FnEval α

/-- The GSL minimiser used by `evolve` (`gsl_multimin_fminimizer` of some
`gsl_multimin_fminimizer_type`), with state `σ`.

* `alloc n` is the state after `gsl_multimin_fminimizer_alloc` for `n` components;
* `set n x ss` is `gsl_multimin_fminimizer_set` for a function of `n` components,
  starting point `x` and step sizes `ss`;
* `iterate s` is `gsl_multimin_fminimizer_iterate`: it returns the status and the new state;
* `size s` is `gsl_multimin_fminimizer_size`;
* `x s` is `gsl_multimin_fminimizer_x`, the current best estimate of the minimum. -/
structure fminimizer_type (σ : Type) where
  alloc : Nat → σ
  set : Nat → List double → List double → FnEval σ
  iterate : σ → FnEval (Int × σ)
  size : σ → double
  x : σ → List double

/-- Status code `GSL_SUCCESS`. -/
def GSL_SUCCESS : Int := 0

/-- Status code `GSL_CONTINUE`. -/
def GSL_CONTINUE : Int := -2

/-- Modelled from the spec: `gsl_multimin_test_size` belongs to the GSL library.  The
size test succeeds when the size metric is below the tolerance and asks to continue
otherwise. -/
def gsl_multimin_test_size (size epsabs : double) : Int :=
  if size < epsabs then GSL_SUCCESS else GSL_CONTINUE

/-! ## Effects -/

/-- The three search-state handles of `evolve`: starting point `x`, step sizes `ss` and
minimiser `s`. -/
inductive Handle
  | x
  | ss
  | s
  deriving DecidableEq, Repr

/-- Observable effects of one `evolve` call. -/
inductive Event
  | alloc (h : Handle) (ok : Bool)
  | free (h : Handle)
  | iterate
  | objfun (x : decision_vector)
  | set_x (idx : Nat) (x : decision_vector)
  deriving DecidableEq

/-- The structure `gsl_nm_wrapper_params`. -/
structure gsl_nm_wrapper_params where
  p : problem.base
  x : decision_vector
  f : fitness_vector
  cont_size : Nat

/-- The loop `for (i = 0; i < cont_size; ++i) par->x[i] = gsl_vector_get(v,i);`. -/
def fill_cont (cont_size : Nat) (v : List double) (x : decision_vector) : decision_vector :=
  (List.range cont_size).foldl (fun x i => x.set i (v.getD i (.val 0))) x

/-- The callback `gsl_nm_wrapper(v, params)`: it overwrites the continuous part of the
stored decision vector with `v`, computes the objective into the stored fitness vector
and returns its first component, leaving the parameter block updated.  When the objective
function throws, the exception leaves the callback, the stored decision vector being
already overwritten. -/
def gsl_nm_wrapper (v : List double) (par : gsl_nm_wrapper_params) :
    Except Exn double × gsl_nm_wrapper_params :=
  let x := fill_cont par.cont_size v par.x
  match par.p.objfun x with
  | .error e => (.error e, { par with x := x })
  | .ok f => (.ok (f.getD 0 (.val 0)), { par with x := x, f := f })

/-- Runs a minimiser computation with `gsl_nm_wrapper` as the objective callback, threading
the parameter block; each call of the objective function is recorded with the full
decision vector passed to it.  An exception thrown by the callback ends the computation:
it propagates through the minimiser, which catches nothing. -/
def FnEval.run {α : Type} : FnEval α → gsl_nm_wrapper_params →
    Except Exn α × gsl_nm_wrapper_params × List Event
  | .ret a, par => (.ok a, par, [])
  | .eval v k, par =>
    match gsl_nm_wrapper v par with
    | (.error e, par1) => (.error e, par1, [Event.objfun par1.x])
    | (.ok y, par1) =>
      let q := (k y).run par1
      (q.1, q.2.1, Event.objfun par1.x :: q.2.2)

/-- State of the search of `evolve` when the loop is left: iteration counter, minimiser
state, parameter block, the events so far, and the exception that left the search, if
any. -/
structure LoopResult (σ : Type) where
  iter : Nat
  s : σ
  par : gsl_nm_wrapper_params
  trace : List Event
  raised : Option Exn

/-- The loop
`do { ++iter; status = iterate(s); if (status) break; size = size(s);
status = test_size(size, m_tol); } while (status == GSL_CONTINUE && iter < m_max_iter);`.
The first argument bounds the number of times the loop body can be re-entered; `evolve`
passes `m_max_iter`, which is never exhausted (`iterate_loop_fuel`).  An exception thrown
through the callback during `iterate` leaves the loop at once. -/
def iterate_loop {σ : Type} (T : fminimizer_type σ) (tol : double) (max_iter : Nat) :
    Nat → Nat → σ → gsl_nm_wrapper_params → LoopResult σ
  | fuel, iter, s, par =>
    let iter1 := iter + 1
    let r := (T.iterate s).run par
    let par1 := r.2.1
    let tr := Event.iterate :: r.2.2
    match r.1 with
    | .error e => ⟨iter1, s, par1, tr, some e⟩
    | .ok (status, s1) =>
      if status ≠ 0 then ⟨iter1, s1, par1, tr, none⟩
      else
        let size := T.size s1
        let status := gsl_multimin_test_size size tol
        if status = GSL_CONTINUE ∧ iter1 < max_iter then
          match fuel with
          | 0 => ⟨iter1, s1, par1, tr, none⟩
          | fuel + 1 =>
            let q := iterate_loop T tol max_iter fuel iter1 s1 par1
            ⟨q.iter, q.s, q.par, tr ++ q.trace, q.raised⟩
        else ⟨iter1, s1, par1, tr, none⟩

/-- The function `gsl_nm::cleanup`: releases each handle that is not null. -/
def cleanup (x ss s : Bool) : List Event :=
  (if x then [Event.free Handle.x] else []) ++
  (if ss then [Event.free Handle.ss] else []) ++
  (if s then [Event.free Handle.s] else [])

/-- The function `gsl_nm::check_allocs`: if at least one allocation failed, it cleans up
and throws `std::bad_alloc`. -/
def check_allocs (x ss s : Bool) : Except Exn Unit × List Event :=
  if !x || !ss || !s then (.error .bad_alloc, cleanup x ss s)
  else (.ok (), [])

/-- The algorithm `std::copy(first, last, out)` on vectors: the elements of the source
range are written one by one from position `i` of the destination. -/
def std_copy : List double → decision_vector → Nat → decision_vector
  | [], dst, _ => dst
  | a :: rest, dst, i => std_copy rest (dst.set i a) (i + 1)

/-- One step of the bounds check of `evolve` on component `i`: the two tests
`if (x[i] < lb[i]) x[i] = lb[i];` and `if (x[i] > ub[i]) x[i] = ub[i];` on doubles. -/
def project_step (lb ub : decision_vector) (x : decision_vector) (i : Nat) :
    decision_vector :=
  let x1 := if x.getD i (.val 0) < lb.getD i (.val 0) then x.set i (lb.getD i (.val 0)) else x
  if x1.getD i (.val 0) > ub.getD i (.val 0) then x1.set i (ub.getD i (.val 0)) else x1

/-- The loop of `evolve` that changes the generated individual to respect the bounds on
its continuous part. -/
def project_bounds (lb ub : decision_vector) (cont_size : Nat) (x : decision_vector) :
    decision_vector :=
  (List.range cont_size).foldl (project_step lb ub) x

/-- The value `cont_size` of `evolve`. -/
def cont_size_of (p : problem.base) : Nat :=
  size_type_sub p.get_dimension p.get_i_dimension

/-- The parameter block built by `evolve` before the allocations: the decision vector is
resized to the problem dimension, then
`std::copy(best_ind.cur_x.begin() + cont_size, best_ind.cur_x.end(), params.x.begin())`. -/
def initial_params (pop : population) : gsl_nm_wrapper_params :=
  let problem := pop.problem
  let cont_size := cont_size_of problem
  let best_ind := pop.get_individual pop.get_best_idx
  { p := problem
    x := std_copy (best_ind.cur_x.drop cont_size)
      (List.replicate problem.get_dimension (.val 0)) 0
    f := List.replicate 1 (.val 0)
    cont_size := cont_size }

/-- The starting point given to the minimiser: the first `cont_size` components of the
best individual. -/
def start_point (pop : population) : List double :=
  (List.range (cont_size_of pop.problem)).map
    (fun i => (pop.get_individual pop.get_best_idx).cur_x.getD i (.val 0))

/-- The search of `evolve`: initialisation of the solver followed by the iteration.  When
the callback throws during the initialisation, the search is left with the minimiser as
allocated. -/
def minimize {σ : Type} (alg : gsl_nm) (T : fminimizer_type σ) (pop : population) :
    LoopResult σ :=
  let cont_size := cont_size_of pop.problem
  let ss := List.replicate cont_size alg.m_step_size
  let r := (T.set cont_size (start_point pop) ss).run (initial_params pop)
  match r.1 with
  | .error e => ⟨0, T.alloc cont_size, r.2.1, r.2.2, some e⟩
  | .ok s0 =>
    let q := iterate_loop T alg.m_tol alg.m_max_iter alg.m_max_iter 0 s0 r.2.1
    ⟨q.iter, q.s, q.par, r.2.2 ++ q.trace, q.raised⟩

/-- What one call of `evolve` leaves behind: how it ended, the population, and the
effects in program order. -/
structure Outcome where
  result : Except Exn Unit
  pop : population
  trace : List Event

/-- The method `gsl_nm::evolve(population &pop)`.  The argument `mem` tells, for each of
the three GSL allocations, whether it succeeds.  There is no `try` block in the method:
an exception thrown by the objective function during the search leaves it at once,
before the call of `cleanup`. -/
def gsl_nm.evolve {σ : Type} (alg : pagmo.gsl_nm) (T : fminimizer_type σ) (mem : Handle → Bool)
    (pop : population) : Outcome :=
  if pop.size = 0 then ⟨.ok (), pop, []⟩
  else
    let problem := pop.problem
    if problem.get_f_dimension ≠ 1 then ⟨.error .value_error, pop, []⟩
    else if problem.get_c_dimension ≠ 0 then ⟨.error .value_error, pop, []⟩
    else
      let cont_size := cont_size_of problem
      if cont_size = 0 then ⟨.error .value_error, pop, []⟩
      else
        let best_ind_idx := pop.get_best_idx
        let allocs := [Event.alloc Handle.x (mem Handle.x),
          Event.alloc Handle.ss (mem Handle.ss), Event.alloc Handle.s (mem Handle.s)]
        match check_allocs (mem Handle.x) (mem Handle.ss) (mem Handle.s) with
        | (.error e, tr) => ⟨.error e, pop, allocs ++ tr⟩
        | (.ok (), _) =>
          let q := minimize alg T pop
          match q.raised with
          | some e => ⟨.error e, pop, allocs ++ q.trace⟩
          | none =>
            let frees := cleanup (mem Handle.x) (mem Handle.ss) (mem Handle.s)
            let x := project_bounds problem.get_lb problem.get_ub cont_size q.par.x
            let tr := allocs ++ q.trace ++ frees ++ [Event.set_x best_ind_idx x]
            match pop.set_x best_ind_idx x with
            | .error e => ⟨.error e, pop, tr⟩
            | .ok pop1 => ⟨.ok (), pop1, tr⟩

/-! ## Observations on traces -/

/-- The last objective evaluation recorded in a trace, if any. -/
def last_objfun : List Event → Option decision_vector
  | [] => none
  | e :: rest =>
    match last_objfun rest with
    | some y => some y
    | none =>
      match e with
      | .objfun y => some y
      | _ => none

/-- The replacements recorded in a trace, in order. -/
def replaced : List Event → List (Nat × decision_vector)
  | [] => []
  | .set_x idx x :: rest => (idx, x) :: replaced rest
  | _ :: rest => replaced rest

/-- Number of minimiser iterations recorded in a trace. -/
def iterations : List Event → Nat
  | [] => 0
  | .iterate :: rest => iterations rest + 1
  | _ :: rest => iterations rest

/-- Events produced by the search itself: iterations and objective evaluations. -/
def Event.is_search : Event → Bool
  | .iterate => true
  | .objfun _ => true
  | _ => false

/-- Handle events: allocations and releases. -/
def Event.is_handle : Event → Bool
  | .alloc _ _ => true
  | .free _ => true
  | _ => false

/-- Saturation of `a` into the interval from `l` to `u`, as the two tests of the bounds
check perform it on doubles. -/
def clamp (l u a : double) : double :=
  let a1 := if a < l then l else a
  if a1 > u then u else a1

/-- A problem whose objective function never throws. -/
def problem.base.total (p : problem.base) : Prop :=
  ∀ x, ∃ f, p.objfun x = .ok f

/-! ## Concrete inputs

A one-dimensional instance of the minimiser parameter and a few small problems and
populations, on which the statements are evaluated. -/

/-- State of the one-dimensional simplex minimiser: the two vertices with their objective
values, and the current best estimate `x` of the minimum. -/
structure simplex1 where
  x0 : double
  y0 : double
  x1 : double
  y1 : double
  x : double

/-- Replaces one vertex of the simplex (vertex 1 when `v1` is true, else vertex 0). -/
def simplex1.update (s : simplex1) (v1 : Bool) (xc val : double) : simplex1 :=
  if v1 then { s with x1 := xc, y1 := val } else { s with x0 := xc, y0 := val }

/-- Stores the lowest vertex as the best estimate (first vertex on a tie). -/
def simplex1.finish (s : simplex1) : simplex1 :=
  { s with x := if s.y1 < s.y0 then s.x1 else s.x0 }

/-- Initialisation of the one-dimensional simplex minimiser: the simplex is the starting
point and the starting point moved by the step size; the best estimate is the starting
point. -/
def nmsimplex1_set (_n : Nat) (x ss : List double) : FnEval simplex1 :=
  .eval [x.getD 0 (.val 0)] fun y0 =>
    .eval [x.getD 0 (.val 0) + ss.getD 0 (.val 0)] fun y1 =>
      .ret ⟨x.getD 0 (.val 0), y0, x.getD 0 (.val 0) + ss.getD 0 (.val 0), y1,
        x.getD 0 (.val 0)⟩

/-- One iteration of the one-dimensional Nelder-Mead simplex minimiser: the highest vertex
is reflected through the other one; the reflected point is expanded when it is the new
lowest, otherwise the highest vertex is contracted towards the other one, or the simplex
is contracted around its lowest vertex.  The tests of GSL that an objective value is
finite are left out: the instance is run below on numbers only. -/
def nmsimplex1_iterate (s : simplex1) : FnEval (Int × simplex1) :=
  let hi1 : Bool := decide (s.y1 > s.y0)
  let lo1 : Bool := decide (s.y1 < s.y0)
  let xhi := if hi1 then s.x1 else s.x0
  let yhi := if hi1 then s.y1 else s.y0
  let c := if hi1 then s.x0 else s.x1
  let yshi := if hi1 then s.y0 else s.y1
  let ylo := if lo1 then s.y1 else s.y0
  .eval [.val 2 * c - xhi] fun val =>
    if val < ylo then
      .eval [.val 3 * c - .val 2 * xhi] fun val2 =>
        if val2 < ylo then
          .ret (GSL_SUCCESS, (s.update hi1 (.val 3 * c - .val 2 * xhi) val2).finish)
        else .ret (GSL_SUCCESS, (s.update hi1 (.val 2 * c - xhi) val).finish)
    else if val > yshi then
      let s1 := if val ≤ yhi then s.update hi1 (.val 2 * c - xhi) val else s
      let xhi1 := if hi1 then s1.x1 else s1.x0
      let yhi1 := if hi1 then s1.y1 else s1.y0
      .eval [.val (1 / 2) * c + .val (1 / 2) * xhi1] fun val2 =>
        if val2 ≤ yhi1 then
          .ret (GSL_SUCCESS,
            (s1.update hi1 (.val (1 / 2) * c + .val (1 / 2) * xhi1) val2).finish)
        else
          let xlo := if lo1 then s1.x1 else s1.x0
          let xot := if lo1 then s1.x0 else s1.x1
          .eval [.val (1 / 2) * (xot + xlo)] fun val3 =>
            .ret (GSL_SUCCESS, (s1.update (!lo1) (.val (1 / 2) * (xot + xlo)) val3).finish)
    else .ret (GSL_SUCCESS, (s.update hi1 (.val 2 * c - xhi) val).finish)

/-- The one-dimensional Nelder-Mead simplex minimiser, an instance of the minimiser
parameter.  Its size is half the distance between the two vertices. -/
def nmsimplex1 : fminimizer_type simplex1 :=
  { alloc := fun _ => ⟨.val 0, .val 0, .val 0, .val 0, .val 0⟩
    set := nmsimplex1_set
    iterate := nmsimplex1_iterate
    size := fun s => double.abs (s.x0 - s.x1) * .val (1 / 2)
    x := fun s => [s.x] }

/-- The problem of minimising `x * x` for `x` between `-10` and `10`: convex quadratic,
one continuous variable, minimum at `0` inside the bounds. -/
def quadratic1 : problem.base :=
  { get_dimension := 1, get_i_dimension := 0, get_f_dimension := 1, get_c_dimension := 0
    get_lb := [.val (-10)], get_ub := [.val 10]
    objfun := fun x => .ok [x.getD 0 (.val 0) * x.getD 0 (.val 0)] }

/-- A population of one individual at the minimum `0` of `quadratic1`. -/
def pop_at_minimum : population := ⟨quadratic1, [⟨[.val 0], [.val 0]⟩]⟩

/-- The problem `quadratic1` with an objective function that throws `value_error` when
its argument is not between the bounds `-10` and `10`. -/
def guarded1 : problem.base :=
  { get_dimension := 1, get_i_dimension := 0, get_f_dimension := 1, get_c_dimension := 0
    get_lb := [.val (-10)], get_ub := [.val 10]
    objfun := fun x =>
      if .val (-10) ≤ x.getD 0 (.val 0) ∧ x.getD 0 (.val 0) ≤ .val 10 then
        .ok [x.getD 0 (.val 0) * x.getD 0 (.val 0)]
      else .error .value_error }

/-- A population of one individual on `guarded1`, at the upper bound `10`. -/
def pop_guarded : population := ⟨guarded1, [⟨[.val 10], [.val 100]⟩]⟩

/-- The problem of minimising `(x - 3) * (x - 3)` for `x` between `-2` and `2`: the
unconstrained minimum `3` is outside the bounds. -/
def shifted1 : problem.base :=
  { get_dimension := 1, get_i_dimension := 0, get_f_dimension := 1, get_c_dimension := 0
    get_lb := [.val (-2)], get_ub := [.val 2]
    objfun := fun x => .ok [(x.getD 0 (.val 0) - .val 3) * (x.getD 0 (.val 0) - .val 3)] }

/-- A population of two individuals on `shifted1`; the best one is at index 1. -/
def pop_shifted : population :=
  ⟨shifted1, [⟨[.val (-1)], [.val 16]⟩, ⟨[.val 0], [.val 9]⟩]⟩

/-- A problem with one continuous and one integer variable:
`x0 * x0 + x1 * x1` with both variables between `-10` and `10`. -/
def mixed2 : problem.base :=
  { get_dimension := 2, get_i_dimension := 1, get_f_dimension := 1, get_c_dimension := 0
    get_lb := [.val (-10), .val (-10)], get_ub := [.val 10, .val 10]
    objfun := fun x => .ok [x.getD 0 (.val 0) * x.getD 0 (.val 0)
      + x.getD 1 (.val 0) * x.getD 1 (.val 0)] }

/-- A population of one individual on `mixed2`, with integer part `7`. -/
def pop_mixed : population := ⟨mixed2, [⟨[.val 1, .val 7], [.val 50]⟩]⟩

/-- A problem with two objectives. -/
def biobjective : problem.base :=
  { get_dimension := 1, get_i_dimension := 0, get_f_dimension := 2, get_c_dimension := 0
    get_lb := [.val (-10)], get_ub := [.val 10]
    objfun := fun x => .ok [x.getD 0 (.val 0) * x.getD 0 (.val 0), x.getD 0 (.val 0)] }

/-- A problem with one constraint. -/
def constrained : problem.base :=
  { get_dimension := 1, get_i_dimension := 0, get_f_dimension := 1, get_c_dimension := 1
    get_lb := [.val (-10)], get_ub := [.val 10]
    objfun := fun x => .ok [x.getD 0 (.val 0) * x.getD 0 (.val 0)] }

/-- A problem whose two variables are both integer. -/
def all_integer : problem.base :=
  { get_dimension := 2, get_i_dimension := 2, get_f_dimension := 1, get_c_dimension := 0
    get_lb := [.val (-10), .val (-10)], get_ub := [.val 10, .val 10]
    objfun := fun x => .ok [x.getD 0 (.val 0) * x.getD 0 (.val 0)
      + x.getD 1 (.val 0) * x.getD 1 (.val 0)] }

/-- The configuration `max_iter = 1`, `tol = 1e-6`, `step_size = 1`. -/
def one_iteration : gsl_nm := ⟨1, .val (1 / 1000000), .val 1⟩

/-- The configuration `max_iter = 200`, `tol = 1e-6`, `step_size = 1`. -/
def default_config : gsl_nm := ⟨200, .val (1 / 1000000), .val 1⟩

/-- All three allocations succeed. -/
def all_ok : Handle → Bool := fun _ => true

/-- Only the allocation of the minimiser fails. -/
def minimizer_fails : Handle → Bool
  | .s => false
  | _ => true

/-! ## Lemmas -/

/-! ### Doubles -/

@[simp] theorem double.val_add (a b : ℚ) : double.val a + double.val b = double.val (a + b) :=
  rfl

@[simp] theorem double.val_sub (a b : ℚ) : double.val a - double.val b = double.val (a - b) :=
  rfl

@[simp] theorem double.val_mul (a b : ℚ) : double.val a * double.val b = double.val (a * b) :=
  rfl

@[simp] theorem double.abs_val (a : ℚ) : double.abs (double.val a) = double.val |a| := rfl

@[simp] theorem double.val_lt (a b : ℚ) : double.val a < double.val b ↔ a < b := Iff.rfl

@[simp] theorem double.val_le (a b : ℚ) : double.val a ≤ double.val b ↔ a ≤ b := Iff.rfl

@[simp] theorem double.not_nan_lt (a : double) : ¬ double.nan < a := fun h => h

@[simp] theorem double.not_lt_nan (a : double) : ¬ a < double.nan := by
  cases a <;> exact fun h => h

@[simp] theorem double.not_nan_le (a : double) : ¬ double.nan ≤ a := fun h => h

@[simp] theorem double.not_le_nan (a : double) : ¬ a ≤ double.nan := by
  cases a <;> exact fun h => h

theorem double.not_le_of_lt {a b : double} (h : a < b) : ¬ b ≤ a := by
  cases a <;> cases b <;> simp_all

theorem size_type_sub_self (a : Nat) : size_type_sub a a = 0 := by
  unfold size_type_sub
  rw [Nat.add_sub_cancel_left, Nat.mod_self]

theorem foldl_range_inv {β : Type} (P : β → Prop) (f : β → Nat → β) (m : Nat)
    (hf : ∀ x i, i < m → P x → P (f x i)) (x : β) (hx : P x) :
    P ((List.range m).foldl f x) := by
  induction m with
  | zero => simpa using hx
  | succ k ih =>
    rw [List.range_succ, List.foldl_append]
    simp only [List.foldl_cons, List.foldl_nil]
    exact hf _ k (Nat.lt_succ_self k)
      (ih (fun x i hi hP => hf x i (Nat.lt_succ_of_lt hi) hP))

theorem fill_cont_length (n : Nat) (v : List double) (x : decision_vector) :
    (fill_cont n v x).length = x.length := by
  unfold fill_cont
  exact foldl_range_inv (fun y => y.length = x.length) (fun y i => y.set i (v.getD i (.val 0))) n
    (fun y i _ hy => by simpa using hy) x rfl

theorem fill_cont_drop (n : Nat) (v : List double) (x : decision_vector) :
    (fill_cont n v x).drop n = x.drop n := by
  unfold fill_cont
  exact foldl_range_inv (fun y => y.drop n = x.drop n) (fun y i => y.set i (v.getD i (.val 0))) n
    (fun y i hi hy => by
      show (y.set i (v.getD i (.val 0))).drop n = x.drop n
      rw [List.drop_set_of_lt _ _ hi]; exact hy) x rfl

theorem project_step_drop (lb ub x : decision_vector) (i n : Nat) (hi : i < n) :
    (project_step lb ub x i).drop n = x.drop n := by
  unfold project_step
  dsimp only
  split_ifs <;> simp [List.drop_set_of_lt _ _ hi]

theorem project_bounds_drop (lb ub : decision_vector) (n : Nat) (x : decision_vector) :
    (project_bounds lb ub n x).drop n = x.drop n := by
  unfold project_bounds
  exact foldl_range_inv (fun y => y.drop n = x.drop n) (project_step lb ub) n
    (fun y i hi hy => by
      show (project_step lb ub y i).drop n = x.drop n
      rw [project_step_drop _ _ _ _ _ hi]; exact hy) x rfl

theorem last_objfun_append (a b : List Event) :
    last_objfun (a ++ b) = (last_objfun b).orElse (fun _ => last_objfun a) := by
  induction a with
  | nil => cases h : last_objfun b <;> simp [last_objfun, h]
  | cons e rest ih =>
    cases hb : last_objfun b <;> rw [hb] at ih <;>
      simp [last_objfun, ih]

theorem replaced_append (a b : List Event) : replaced (a ++ b) = replaced a ++ replaced b := by
  induction a with
  | nil => rfl
  | cons e rest ih => cases e <;> simp [replaced, ih]

theorem iterations_append (a b : List Event) :
    iterations (a ++ b) = iterations a + iterations b := by
  induction a with
  | nil => simp [iterations]
  | cons e rest ih => cases e <;> simp [iterations, ih]; omega

theorem replaced_of_search (tr : List Event) (h : ∀ e ∈ tr, e.is_search = true) :
    replaced tr = [] := by
  induction tr with
  | nil => rfl
  | cons e rest ih =>
    have he := h e (List.mem_cons_self _ _)
    have hr := ih (fun e1 h1 => h e1 (List.mem_cons_of_mem _ h1))
    cases e <;> simp_all [replaced, Event.is_search]

/-- The callback keeps the problem and `cont_size`, and leaves in the stored vector the
old one with its continuous part overwritten, whether the objective function throws or
not. -/
theorem gsl_nm_wrapper_par (v : List double) (par : gsl_nm_wrapper_params) :
    (gsl_nm_wrapper v par).2.p = par.p ∧
    (gsl_nm_wrapper v par).2.cont_size = par.cont_size ∧
    (gsl_nm_wrapper v par).2.x = fill_cont par.cont_size v par.x := by
  unfold gsl_nm_wrapper
  dsimp only
  split <;> exact ⟨rfl, rfl, rfl⟩

/-- The callback returns a value when the objective function does not throw. -/
theorem gsl_nm_wrapper_total (v : List double) (par : gsl_nm_wrapper_params)
    (htot : par.p.total) : ∃ y, (gsl_nm_wrapper v par).1 = .ok y := by
  obtain ⟨f, hf⟩ := htot (fill_cont par.cont_size v par.x)
  unfold gsl_nm_wrapper
  dsimp only
  rw [hf]
  exact ⟨_, rfl⟩

/-- What running a minimiser computation does to the parameter block: problem and
`cont_size` are kept, the stored vector keeps its length and its components from
`cont_size` on, only objective evaluations are recorded, and the stored vector is the
argument of the last evaluation when there is one. -/
theorem FnEval.run_inv {α : Type} (m : FnEval α) (par : gsl_nm_wrapper_params) :
    (m.run par).2.1.p = par.p ∧ (m.run par).2.1.cont_size = par.cont_size ∧
    (m.run par).2.1.x.length = par.x.length ∧
    (m.run par).2.1.x.drop par.cont_size = par.x.drop par.cont_size ∧
    (∀ e ∈ (m.run par).2.2, ∃ y, e = Event.objfun y) ∧
    (m.run par).2.1.x = (last_objfun (m.run par).2.2).getD par.x := by
  induction m generalizing par with
  | ret a => simp [FnEval.run, last_objfun]
  | eval v k ih =>
    obtain ⟨w1, w2, w3⟩ := gsl_nm_wrapper_par v par
    rcases hw : gsl_nm_wrapper v par with ⟨r, par1⟩
    rw [hw] at w1 w2 w3
    simp only at w1 w2 w3
    have hlen : par1.x.length = par.x.length := by rw [w3, fill_cont_length]
    have hdrop : par1.x.drop par.cont_size = par.x.drop par.cont_size := by
      rw [w3, fill_cont_drop]
    cases r with
    | error e =>
      simp only [FnEval.run, hw]
      refine ⟨w1, w2, hlen, hdrop, ?_, ?_⟩
      · intro e1 he1
        exact ⟨_, List.mem_singleton.mp he1⟩
      · simp [last_objfun]
    | ok y =>
      obtain ⟨h1, h2, h3, h4, h5, h6⟩ := ih y par1
      simp only [FnEval.run, hw]
      refine ⟨h1.trans w1, h2.trans w2, h3.trans hlen, ?_, ?_, ?_⟩
      · rw [w2] at h4
        exact h4.trans hdrop
      · intro e1 he1
        rcases List.mem_cons.mp he1 with h | h
        · exact ⟨_, h⟩
        · exact h5 e1 h
      · rw [h6]
        cases hl : last_objfun ((k y).run par1).2.2 <;> simp [last_objfun, hl]

/-- A minimiser computation ends with a value when the objective function never throws. -/
theorem FnEval.run_total {α : Type} (m : FnEval α) (par : gsl_nm_wrapper_params)
    (htot : par.p.total) : ∃ a, (m.run par).1 = .ok a := by
  induction m generalizing par with
  | ret a => exact ⟨a, rfl⟩
  | eval v k ih =>
    obtain ⟨y, hy⟩ := gsl_nm_wrapper_total v par htot
    obtain ⟨w1, _, _⟩ := gsl_nm_wrapper_par v par
    rcases hw : gsl_nm_wrapper v par with ⟨r, par1⟩
    rw [hw] at hy w1
    simp only at hy w1
    subst hy
    have htot1 : par1.p.total := by rw [w1]; exact htot
    obtain ⟨a, ha⟩ := ih y par1 htot1
    exact ⟨a, by simp only [FnEval.run, hw]; exact ha⟩

/-- A trace of objective evaluations records no iteration. -/
theorem iterations_objfun (tr : List Event) (h : ∀ e ∈ tr, ∃ y, e = Event.objfun y) :
    iterations tr = 0 := by
  induction tr with
  | nil => rfl
  | cons e rest ih =>
    obtain ⟨y, hy⟩ := h e (List.mem_cons_self _ _)
    subst hy
    simpa [iterations] using ih (fun e1 h1 => h e1 (List.mem_cons_of_mem _ h1))

/-- One pass through the loop body: the events of `iterate` preceded by the iteration
mark are search events, count for one iteration, and end with the same last evaluation. -/
theorem iterate_step_trace {α : Type} (m : FnEval α) (par : gsl_nm_wrapper_params) :
    (∀ e ∈ Event.iterate :: (m.run par).2.2, e.is_search = true) ∧
    iterations (Event.iterate :: (m.run par).2.2) = 1 ∧
    last_objfun (Event.iterate :: (m.run par).2.2) = last_objfun (m.run par).2.2 := by
  have h5 := (FnEval.run_inv m par).2.2.2.2.1
  refine ⟨?_, ?_, ?_⟩
  · intro e he
    rcases List.mem_cons.mp he with h | h
    · subst h; rfl
    · obtain ⟨y, hy⟩ := h5 e h
      subst hy; rfl
  · simp [iterations, iterations_objfun _ h5]
  · cases hh : last_objfun (m.run par).2.2 <;> simp [last_objfun, hh]

/-- Invariants of the iteration, as for `FnEval.run_inv`. -/
theorem iterate_loop_inv {σ : Type} (T : fminimizer_type σ) (tol : double) (max_iter : Nat)
    (fuel iter : Nat) (s : σ) (par : gsl_nm_wrapper_params) :
    (iterate_loop T tol max_iter fuel iter s par).par.p = par.p ∧
    (iterate_loop T tol max_iter fuel iter s par).par.cont_size = par.cont_size ∧
    (iterate_loop T tol max_iter fuel iter s par).par.x.length = par.x.length ∧
    (iterate_loop T tol max_iter fuel iter s par).par.x.drop par.cont_size
      = par.x.drop par.cont_size ∧
    (∀ e ∈ (iterate_loop T tol max_iter fuel iter s par).trace, e.is_search = true) ∧
    (iterate_loop T tol max_iter fuel iter s par).par.x
      = (last_objfun (iterate_loop T tol max_iter fuel iter s par).trace).getD par.x := by
  induction fuel generalizing iter s par with
  | zero =>
    obtain ⟨h1, h2, h3, h4, _, h6⟩ := FnEval.run_inv (T.iterate s) par
    obtain ⟨hs, _, hl⟩ := iterate_step_trace (T.iterate s) par
    unfold iterate_loop
    dsimp only
    split
    · exact ⟨h1, h2, h3, h4, hs, by rw [hl]; exact h6⟩
    · split_ifs <;> exact ⟨h1, h2, h3, h4, hs, by rw [hl]; exact h6⟩
  | succ n ih =>
    obtain ⟨h1, h2, h3, h4, _, h6⟩ := FnEval.run_inv (T.iterate s) par
    obtain ⟨hs, _, hl⟩ := iterate_step_trace (T.iterate s) par
    unfold iterate_loop
    dsimp only
    split
    · exact ⟨h1, h2, h3, h4, hs, by rw [hl]; exact h6⟩
    · rename_i status s1 _
      obtain ⟨g1, g2, g3, g4, g5, g6⟩ := ih (iter + 1) s1 ((T.iterate s).run par).2.1
      split_ifs
      · exact ⟨h1, h2, h3, h4, hs, by rw [hl]; exact h6⟩
      · refine ⟨g1.trans h1, g2.trans h2, g3.trans h3, ?_, ?_, ?_⟩
        · rw [h2] at g4
          exact g4.trans h4
        · intro e he
          rcases List.mem_append.mp he with h | h
          · exact hs e h
          · exact g5 e h
        · dsimp only
          rw [g6, last_objfun_append, h6, hl]
          cases hq : last_objfun (iterate_loop T tol max_iter n (iter + 1) s1
            ((T.iterate s).run par).2.1).trace <;> simp
      · exact ⟨h1, h2, h3, h4, hs, by rw [hl]; exact h6⟩

/-- The iteration counter after the loop: at least one iteration is made, the counter never
exceeds the larger of `iter + 1` and `max_iter`, and the trace records exactly the
iterations made. -/
theorem iterate_loop_iter {σ : Type} (T : fminimizer_type σ) (tol : double) (max_iter : Nat)
    (fuel iter : Nat) (s : σ) (par : gsl_nm_wrapper_params) :
    iter + 1 ≤ (iterate_loop T tol max_iter fuel iter s par).iter ∧
    (iterate_loop T tol max_iter fuel iter s par).iter ≤ max (iter + 1) max_iter ∧
    iterations (iterate_loop T tol max_iter fuel iter s par).trace + iter
      = (iterate_loop T tol max_iter fuel iter s par).iter := by
  induction fuel generalizing iter s par with
  | zero =>
    have hrun := (iterate_step_trace (T.iterate s) par).2.1
    unfold iterate_loop
    dsimp only
    split
    · exact ⟨le_refl _, le_max_left _ _, by dsimp only; rw [hrun]; omega⟩
    · split_ifs <;> exact ⟨le_refl _, le_max_left _ _, by dsimp only; rw [hrun]; omega⟩
  | succ n ih =>
    have hrun := (iterate_step_trace (T.iterate s) par).2.1
    unfold iterate_loop
    dsimp only
    split
    · exact ⟨le_refl _, le_max_left _ _, by dsimp only; rw [hrun]; omega⟩
    · rename_i status s1 _
      obtain ⟨g1, g2, g3⟩ := ih (iter + 1) s1 ((T.iterate s).run par).2.1
      split_ifs with h1 h2
      · exact ⟨le_refl _, le_max_left _ _, by dsimp only; rw [hrun]; omega⟩
      · dsimp only
        refine ⟨by omega, ?_, ?_⟩
        · have hlt : iter + 1 < max_iter := h2.2
          have hmax : max (iter + 1 + 1) max_iter = max_iter := max_eq_right (by omega)
          rw [hmax] at g2
          exact le_trans g2 (le_max_right _ _)
        · rw [iterations_append, hrun]; omega
      · exact ⟨le_refl _, le_max_left _ _, by dsimp only; rw [hrun]; omega⟩

/-- The bound on re-entries is never exhausted when it covers the iterations that remain:
any two such bounds give the same result.  In particular the bound `m_max_iter` passed by
`evolve` behaves as an unbounded loop. -/
theorem iterate_loop_fuel {σ : Type} (T : fminimizer_type σ) (tol : double) (max_iter : Nat)
    (fuel1 fuel2 iter : Nat) (s : σ) (par : gsl_nm_wrapper_params)
    (h1 : max_iter ≤ iter + 1 + fuel1) (h2 : max_iter ≤ iter + 1 + fuel2) :
    iterate_loop T tol max_iter fuel1 iter s par
      = iterate_loop T tol max_iter fuel2 iter s par := by
  induction fuel1 generalizing fuel2 iter s par with
  | zero =>
    cases fuel2 with
    | zero => rfl
    | succ m =>
      unfold iterate_loop
      dsimp only
      split
      · rfl
      · split_ifs with ha hb
        · rfl
        · exact absurd hb.2 (by omega)
        · rfl
  | succ n ih =>
    cases fuel2 with
    | zero =>
      unfold iterate_loop
      dsimp only
      split
      · rfl
      · split_ifs with ha hb
        · rfl
        · exact absurd hb.2 (by omega)
        · rfl
    | succ m =>
      unfold iterate_loop
      dsimp only
      split
      · rfl
      · split_ifs with ha hb
        · rfl
        · rw [ih m (iter + 1) _ _ (by omega) (by omega)]
        · rfl

/-- The bound `m_max_iter` that `evolve` passes for the re-entries of the loop is enough:
a larger bound gives the same iteration, so the loop of the model ends as the loop of the
code does. -/
theorem iterate_loop_enough {σ : Type} (T : fminimizer_type σ) (tol : double)
    (max_iter k : Nat) (s : σ) (par : gsl_nm_wrapper_params) :
    iterate_loop T tol max_iter (max_iter + k) 0 s par
      = iterate_loop T tol max_iter max_iter 0 s par :=
  iterate_loop_fuel T tol max_iter (max_iter + k) max_iter 0 s par (by omega) (by omega)

/-- The iteration raises nothing when the objective function never throws. -/
theorem iterate_loop_total {σ : Type} (T : fminimizer_type σ) (tol : double) (max_iter : Nat)
    (fuel iter : Nat) (s : σ) (par : gsl_nm_wrapper_params) (htot : par.p.total) :
    (iterate_loop T tol max_iter fuel iter s par).raised = none := by
  induction fuel generalizing iter s par with
  | zero =>
    obtain ⟨a, ha⟩ := FnEval.run_total (T.iterate s) par htot
    unfold iterate_loop
    dsimp only
    rw [ha]
    dsimp only
    split_ifs <;> rfl
  | succ n ih =>
    obtain ⟨a, ha⟩ := FnEval.run_total (T.iterate s) par htot
    have hp := (FnEval.run_inv (T.iterate s) par).1
    unfold iterate_loop
    dsimp only
    rw [ha]
    dsimp only
    split_ifs
    · rfl
    · exact ih (iter + 1) a.2 _ (by rw [hp]; exact htot)
    · rfl

/-- Invariants of the whole search. -/
theorem minimize_inv {σ : Type} (alg : gsl_nm) (T : fminimizer_type σ) (pop : population) :
    (minimize alg T pop).par.x.length = (initial_params pop).x.length ∧
    (minimize alg T pop).par.x.drop (cont_size_of pop.problem)
      = (initial_params pop).x.drop (cont_size_of pop.problem) ∧
    (∀ e ∈ (minimize alg T pop).trace, e.is_search = true) ∧
    (minimize alg T pop).par.x
      = (last_objfun (minimize alg T pop).trace).getD (initial_params pop).x := by
  obtain ⟨h1, h2, h3, h4, h5, h6⟩ :=
    FnEval.run_inv (T.set (cont_size_of pop.problem) (start_point pop)
      (List.replicate (cont_size_of pop.problem) alg.m_step_size)) (initial_params pop)
  have hc : (initial_params pop).cont_size = cont_size_of pop.problem := rfl
  rw [hc] at h4
  have hs5 : ∀ e ∈ ((T.set (cont_size_of pop.problem) (start_point pop)
      (List.replicate (cont_size_of pop.problem) alg.m_step_size)).run
        (initial_params pop)).2.2, e.is_search = true := by
    intro e he
    obtain ⟨y, hy⟩ := h5 e he
    subst hy; rfl
  unfold minimize
  dsimp only
  split
  · exact ⟨h3, h4, hs5, h6⟩
  · rename_i s0 _
    obtain ⟨g1, g2, g3, g4, g5, g6⟩ := iterate_loop_inv T alg.m_tol alg.m_max_iter
      alg.m_max_iter 0 s0
      ((T.set (cont_size_of pop.problem) (start_point pop)
        (List.replicate (cont_size_of pop.problem) alg.m_step_size)).run
          (initial_params pop)).2.1
    rw [h2, hc] at g4
    dsimp only
    refine ⟨g3.trans h3, g4.trans h4, ?_, ?_⟩
    · intro e he
      rcases List.mem_append.mp he with h | h
      · exact hs5 e h
      · exact g5 e h
    · rw [g6, last_objfun_append, h6]
      cases hq : last_objfun (iterate_loop T alg.m_tol alg.m_max_iter alg.m_max_iter 0 s0
        ((T.set (cont_size_of pop.problem) (start_point pop)
          (List.replicate (cont_size_of pop.problem) alg.m_step_size)).run
            (initial_params pop)).2.1).trace <;> simp

/-- Number of iterations of the whole search: never more than the larger of 1 and
`m_max_iter`, and at least one when no exception left the search. -/
theorem minimize_iterations {σ : Type} (alg : gsl_nm) (T : fminimizer_type σ)
    (pop : population) :
    iterations (minimize alg T pop).trace ≤ max 1 alg.m_max_iter ∧
    ((minimize alg T pop).raised = none → 1 ≤ iterations (minimize alg T pop).trace) := by
  have h5 := (FnEval.run_inv (T.set (cont_size_of pop.problem) (start_point pop)
      (List.replicate (cont_size_of pop.problem) alg.m_step_size))
      (initial_params pop)).2.2.2.2.1
  have h0 := iterations_objfun _ h5
  unfold minimize
  dsimp only
  split
  · dsimp only
    rw [h0]
    exact ⟨Nat.zero_le _, fun h => by cases h⟩
  · rename_i s0 _
    obtain ⟨g1, g2, g3⟩ := iterate_loop_iter T alg.m_tol alg.m_max_iter alg.m_max_iter 0 s0
      ((T.set (cont_size_of pop.problem) (start_point pop)
        (List.replicate (cont_size_of pop.problem) alg.m_step_size)).run
          (initial_params pop)).2.1
    dsimp only
    rw [iterations_append, h0]
    simp only [Nat.zero_add, Nat.add_zero] at g1 g2 g3 ⊢
    rw [g3]
    exact ⟨g2, fun _ => g1⟩

/-- The search raises nothing when the objective function never throws. -/
theorem minimize_total {σ : Type} (alg : gsl_nm) (T : fminimizer_type σ) (pop : population)
    (htot : pop.problem.total) : (minimize alg T pop).raised = none := by
  obtain ⟨s0, hs0⟩ := FnEval.run_total (T.set (cont_size_of pop.problem) (start_point pop)
      (List.replicate (cont_size_of pop.problem) alg.m_step_size)) (initial_params pop) htot
  have hp := (FnEval.run_inv (T.set (cont_size_of pop.problem) (start_point pop)
      (List.replicate (cont_size_of pop.problem) alg.m_step_size)) (initial_params pop)).1
  unfold minimize
  dsimp only
  rw [hs0]
  dsimp only
  exact iterate_loop_total T _ _ _ _ _ _ (by rw [hp]; exact htot)

/-! ### The population interface -/

theorem best_from_lt (l : List individual_type) (i b : Nat) (fb : double) (hb : b < i) :
    best_from l i b fb < i + l.length := by
  induction l generalizing i b fb with
  | nil => simpa [best_from] using hb
  | cons ind rest ih =>
    unfold best_from
    split_ifs
    · have := ih (i + 1) i ind.fitness (Nat.lt_succ_self i)
      simp only [List.length_cons]; omega
    · have := ih (i + 1) b fb (Nat.lt_succ_of_lt hb)
      simp only [List.length_cons]; omega

/-- The best index of a non-empty population is a valid index. -/
theorem get_best_idx_lt (pop : population) (h : pop.size ≠ 0) :
    pop.get_best_idx < pop.size := by
  unfold population.get_best_idx population.size at *
  cases hc : pop.container with
  | nil => simp [hc] at h
  | cons ind rest =>
    have := best_from_lt rest 1 0 ind.fitness (by decide)
    simp only [List.length_cons]; omega

/-! ### The shape of a call of `evolve` -/

/-- On a non-empty population with a supported problem and three successful allocations,
when an exception leaves the search, `evolve` raises it; its effects are the allocations
and the events of the search, and nothing else: no handle is released, nothing is
replaced, and the population is as before. -/
theorem evolve_search_raises {σ : Type} (alg : gsl_nm) (T : fminimizer_type σ)
    (mem : Handle → Bool) (pop : population) (hne : pop.size ≠ 0)
    (hf : pop.problem.get_f_dimension = 1) (hc : pop.problem.get_c_dimension = 0)
    (hcont : cont_size_of pop.problem ≠ 0)
    (hx : mem Handle.x = true) (hss : mem Handle.ss = true) (hs : mem Handle.s = true)
    (e : Exn) (hr : (minimize alg T pop).raised = some e) :
    (alg.evolve T mem pop).result = .error e ∧
    (alg.evolve T mem pop).pop = pop ∧
    (alg.evolve T mem pop).trace =
      [Event.alloc Handle.x true, Event.alloc Handle.ss true, Event.alloc Handle.s true]
        ++ (minimize alg T pop).trace := by
  simp [gsl_nm.evolve, hne, hf, hc, hcont, hx, hss, hs, check_allocs, hr]

/-- On a non-empty population with a supported problem and three successful allocations,
when no exception leaves the search, the effects of `evolve` are the allocations, the
search, the three releases and one replacement of the best individual by the projected
stored vector; the call returns normally with the individual replaced when the objective
function gives a fitness for that vector, and passes on its exception otherwise. -/
theorem evolve_search_done {σ : Type} (alg : gsl_nm) (T : fminimizer_type σ)
    (mem : Handle → Bool) (pop : population) (hne : pop.size ≠ 0)
    (hf : pop.problem.get_f_dimension = 1) (hc : pop.problem.get_c_dimension = 0)
    (hcont : cont_size_of pop.problem ≠ 0)
    (hx : mem Handle.x = true) (hss : mem Handle.ss = true) (hs : mem Handle.s = true)
    (hr : (minimize alg T pop).raised = none) :
    (alg.evolve T mem pop).trace =
      [Event.alloc Handle.x true, Event.alloc Handle.ss true, Event.alloc Handle.s true]
        ++ (minimize alg T pop).trace
        ++ [Event.free Handle.x, Event.free Handle.ss, Event.free Handle.s]
        ++ [Event.set_x pop.get_best_idx
            (project_bounds pop.problem.get_lb pop.problem.get_ub (cont_size_of pop.problem)
              (minimize alg T pop).par.x)] ∧
    (∀ f, pop.problem.objfun
        (project_bounds pop.problem.get_lb pop.problem.get_ub (cont_size_of pop.problem)
          (minimize alg T pop).par.x) = .ok f →
      (alg.evolve T mem pop).result = .ok () ∧
      (alg.evolve T mem pop).pop =
        population.mk pop.problem (pop.container.set pop.get_best_idx
          (individual_type.mk
            (project_bounds pop.problem.get_lb pop.problem.get_ub (cont_size_of pop.problem)
              (minimize alg T pop).par.x) f))) ∧
    (∀ e, pop.problem.objfun
        (project_bounds pop.problem.get_lb pop.problem.get_ub (cont_size_of pop.problem)
          (minimize alg T pop).par.x) = .error e →
      (alg.evolve T mem pop).result = .error e ∧ (alg.evolve T mem pop).pop = pop) := by
  have hb := get_best_idx_lt pop hne
  have hnb : ¬ pop.get_best_idx ≥ pop.size := by omega
  refine ⟨?_, ?_, ?_⟩
  · cases ho : pop.problem.objfun
        (project_bounds pop.problem.get_lb pop.problem.get_ub (cont_size_of pop.problem)
          (minimize alg T pop).par.x) <;>
      simp [gsl_nm.evolve, hne, hf, hc, hcont, hx, hss, hs, check_allocs, cleanup,
        population.set_x, hnb, hr, ho]
  · intro f ho
    simp [gsl_nm.evolve, hne, hf, hc, hcont, hx, hss, hs, check_allocs, cleanup,
      population.set_x, hnb, hr, ho]
  · intro e ho
    simp [gsl_nm.evolve, hne, hf, hc, hcont, hx, hss, hs, check_allocs, cleanup,
      population.set_x, hnb, hr, ho]

/-- On a non-empty population with a supported problem whose objective function never
throws, and three successful allocations, `evolve` returns normally; the effects are the
allocations, the search, the three releases and one replacement of the best individual by
the projected stored vector. -/
theorem evolve_ok {σ : Type} (alg : gsl_nm) (T : fminimizer_type σ) (mem : Handle → Bool)
    (pop : population) (hne : pop.size ≠ 0) (hf : pop.problem.get_f_dimension = 1)
    (hc : pop.problem.get_c_dimension = 0) (hcont : cont_size_of pop.problem ≠ 0)
    (hx : mem Handle.x = true) (hss : mem Handle.ss = true) (hs : mem Handle.s = true)
    (htot : pop.problem.total) :
    (alg.evolve T mem pop).result = .ok () ∧
    (∃ f, pop.problem.objfun
        (project_bounds pop.problem.get_lb pop.problem.get_ub (cont_size_of pop.problem)
          (minimize alg T pop).par.x) = .ok f ∧
      (alg.evolve T mem pop).pop =
        population.mk pop.problem (pop.container.set pop.get_best_idx
          (individual_type.mk
            (project_bounds pop.problem.get_lb pop.problem.get_ub (cont_size_of pop.problem)
              (minimize alg T pop).par.x) f))) ∧
    (alg.evolve T mem pop).trace =
      [Event.alloc Handle.x true, Event.alloc Handle.ss true, Event.alloc Handle.s true]
        ++ (minimize alg T pop).trace
        ++ [Event.free Handle.x, Event.free Handle.ss, Event.free Handle.s]
        ++ [Event.set_x pop.get_best_idx
            (project_bounds pop.problem.get_lb pop.problem.get_ub (cont_size_of pop.problem)
              (minimize alg T pop).par.x)] := by
  obtain ⟨htr, hok, _⟩ := evolve_search_done alg T mem pop hne hf hc hcont hx hss hs
    (minimize_total alg T pop htot)
  obtain ⟨f, hfo⟩ := htot (project_bounds pop.problem.get_lb pop.problem.get_ub
    (cont_size_of pop.problem) (minimize alg T pop).par.x)
  exact ⟨(hok f hfo).1, ⟨f, hfo, (hok f hfo).2⟩, htr⟩

/-- A trace of search events contains no handle event and no replacement. -/
theorem search_trace_count (tr : List Event) (h : ∀ e ∈ tr, e.is_search = true) :
    (∀ hd, tr.count (Event.free hd) = 0) ∧ (∀ hd ok, tr.count (Event.alloc hd ok) = 0) ∧
    (∀ idx v, Event.set_x idx v ∉ tr) := by
  refine ⟨?_, ?_, ?_⟩
  · intro hd
    rw [List.count_eq_zero]
    intro hm
    have := h _ hm
    simp [Event.is_search] at this
  · intro hd ok
    rw [List.count_eq_zero]
    intro hm
    have := h _ hm
    simp [Event.is_search] at this
  · intro idx v hm
    have := h _ hm
    simp [Event.is_search] at this

/-- Saturation of a number between ordered bounds puts it between the bounds and keeps a
number that is already between them. -/
theorem clamp_spec (l u : double) (a : ℚ) (hlu : l ≤ u) :
    l ≤ clamp l u (.val a) ∧ clamp l u (.val a) ≤ u ∧
    (l ≤ .val a → .val a ≤ u → clamp l u (.val a) = .val a) := by
  cases l with
  | nan => exact absurd hlu (double.not_nan_le _)
  | val l =>
    cases u with
    | nan => exact absurd hlu (double.not_le_nan _)
    | val u =>
      have hlu1 : l ≤ u := hlu
      unfold clamp
      dsimp only
      refine ⟨?_, ?_, ?_⟩
      · split_ifs <;> simp_all
      · split_ifs <;> simp_all
      · intro h1 h2
        have h1q : l ≤ a := h1
        have h2q : a ≤ u := h2
        split_ifs <;> simp_all <;> linarith

/-- On a non-empty population with a supported problem, when at least one of the three
allocations fails `evolve` raises `bad_alloc`, leaves the population as it was, and its
effects are the three allocation attempts followed by the clean-up. -/
theorem evolve_alloc_failure {σ : Type} (alg : gsl_nm) (T : fminimizer_type σ)
    (mem : Handle → Bool) (pop : population) (hne : pop.size ≠ 0)
    (hf : pop.problem.get_f_dimension = 1) (hc : pop.problem.get_c_dimension = 0)
    (hcont : cont_size_of pop.problem ≠ 0)
    (hfail : ¬ (mem Handle.x = true ∧ mem Handle.ss = true ∧ mem Handle.s = true)) :
    (alg.evolve T mem pop).result = .error .bad_alloc ∧
    (alg.evolve T mem pop).pop = pop ∧
    (alg.evolve T mem pop).trace =
      [Event.alloc Handle.x (mem Handle.x), Event.alloc Handle.ss (mem Handle.ss),
        Event.alloc Handle.s (mem Handle.s)]
      ++ cleanup (mem Handle.x) (mem Handle.ss) (mem Handle.s) := by
  have hb : (!mem Handle.x || !mem Handle.ss || !mem Handle.s) = true := by
    cases hx : mem Handle.x <;> cases hss : mem Handle.ss <;> cases hs : mem Handle.s <;>
      simp_all
  simp [gsl_nm.evolve, hne, hf, hc, hcont, check_allocs, hb]

/-- On a non-empty population with a supported problem, three successful allocations and
a search that no exception left, the replacements recorded are exactly one: the best
individual receives the projected stored vector of the search. -/
theorem evolve_replaced_ok {σ : Type} (alg : gsl_nm) (T : fminimizer_type σ)
    (mem : Handle → Bool) (pop : population) (hne : pop.size ≠ 0)
    (hf : pop.problem.get_f_dimension = 1) (hc : pop.problem.get_c_dimension = 0)
    (hcont : cont_size_of pop.problem ≠ 0)
    (hx : mem Handle.x = true) (hss : mem Handle.ss = true) (hs : mem Handle.s = true)
    (hr : (minimize alg T pop).raised = none) :
    replaced (alg.evolve T mem pop).trace
      = [(pop.get_best_idx, project_bounds pop.problem.get_lb pop.problem.get_ub
            (cont_size_of pop.problem) (minimize alg T pop).par.x)] := by
  obtain ⟨_, _, hsearch, _⟩ := minimize_inv alg T pop
  rw [(evolve_search_done alg T mem pop hne hf hc hcont hx hss hs hr).1]
  simp [replaced_append, replaced_of_search _ hsearch, replaced]

/-- What `evolve` writes back when the search evaluated the objective at least once: the
projection of the decision vector of the last objective evaluation, whatever the best
vertex of the minimiser is. -/
theorem evolve_replaced_last_objfun {σ : Type} (alg : gsl_nm) (T : fminimizer_type σ)
    (mem : Handle → Bool) (pop : population) (hne : pop.size ≠ 0)
    (hf : pop.problem.get_f_dimension = 1) (hc : pop.problem.get_c_dimension = 0)
    (hcont : cont_size_of pop.problem ≠ 0)
    (hx : mem Handle.x = true) (hss : mem Handle.ss = true) (hs : mem Handle.s = true)
    (hr : (minimize alg T pop).raised = none)
    (y : decision_vector) (hy : last_objfun (minimize alg T pop).trace = some y) :
    replaced (alg.evolve T mem pop).trace
      = [(pop.get_best_idx, project_bounds pop.problem.get_lb pop.problem.get_ub
            (cont_size_of pop.problem) y)] := by
  rw [evolve_replaced_ok alg T mem pop hne hf hc hcont hx hss hs hr,
    (minimize_inv alg T pop).2.2.2, hy]
  rfl

/-! ### Evaluation on the concrete inputs -/

theorem quadratic1_total : quadratic1.total := fun _ => ⟨_, rfl⟩

theorem shifted1_total : shifted1.total := fun _ => ⟨_, rfl⟩

theorem mixed2_total : mixed2.total := fun _ => ⟨_, rfl⟩

/-- One iteration of the one-dimensional minimiser from the minimum `0` of `quadratic1`
with step 1: the objective is evaluated at `0`, `1`, then at the reflected point `-1` and
at the contracted point `-1/2`; the stored vector is left at `-1/2` while the best vertex
of the minimiser is `0`. -/
theorem minimize_at_minimum :
    (minimize one_iteration nmsimplex1 pop_at_minimum).trace
      = [Event.objfun [.val 0], Event.objfun [.val 1], Event.iterate,
          Event.objfun [.val (-1)], Event.objfun [.val (-1 / 2)]] ∧
    (minimize one_iteration nmsimplex1 pop_at_minimum).par.x = [.val (-1 / 2)] ∧
    nmsimplex1.x (minimize one_iteration nmsimplex1 pop_at_minimum).s = [.val 0] := by
  simp [one_iteration, pop_at_minimum, quadratic1, cont_size_of, size_type_sub, SIZE_BITS,
    minimize, nmsimplex1, nmsimplex1_set, nmsimplex1_iterate, simplex1.update,
    simplex1.finish, FnEval.run, iterate_loop, initial_params, start_point, gsl_nm_wrapper,
    fill_cont, std_copy, population.get_individual, population.get_best_idx, best_from,
    individual_type.fitness, List.range, List.range.loop, gsl_multimin_test_size,
    GSL_CONTINUE, GSL_SUCCESS]
  norm_num [FnEval.run, gsl_nm_wrapper, fill_cont, List.range, List.range.loop]

/-- The bounds check on a vector of one continuous component. -/
theorem project_bounds_singleton (l u a : double) :
    project_bounds [l] [u] 1 [a] = [clamp l u a] := by
  unfold project_bounds project_step clamp
  simp only [List.range, List.range.loop, List.foldl_cons, List.foldl_nil]
  split_ifs <;> simp_all

/-- One iteration of the one-dimensional minimiser on `quadratic1` from a simplex whose
vertices are the minimum `0` and a point `a` other than `0`: the reflected point `-a` is
not better than `a`, so the vertex is contracted to `-a / 2`, which is evaluated last and
left in the stored vector; the best vertex remains `0`. -/
theorem nmsimplex1_iterate_at_minimum (a : ℚ) (b : double) (f : fitness_vector)
    (ha : a ≠ 0) :
    (nmsimplex1_iterate ⟨.val 0, .val 0, .val a, .val (a * a), .val 0⟩).run
        ⟨quadratic1, [b], f, 1⟩
      = (.ok (0, ⟨.val 0, .val 0, .val (-a / 2), .val ((-a / 2) * (-a / 2)), .val 0⟩),
          ⟨quadratic1, [.val (-a / 2)], [.val ((-a / 2) * (-a / 2))], 1⟩,
          [Event.objfun [.val (-a)], Event.objfun [.val (-a / 2)]]) := by
  have hpos : 0 < a * a := mul_self_pos.mpr ha
  have h1 : ¬ a * a < 0 := not_lt.mpr hpos.le
  have h6 : -(2⁻¹ * a) = -a / 2 := by ring
  have h7 : 2⁻¹ * a * (2⁻¹ * a) = -a / 2 * (-a / 2) := by ring
  have h8 : -a / 2 * (-a / 2) ≤ a * a := by nlinarith
  have h9 : ¬ -a / 2 * (-a / 2) < 0 := not_lt.mpr (mul_self_nonneg _)
  simp [nmsimplex1_iterate, FnEval.run, gsl_nm_wrapper, fill_cont, List.range,
    List.range.loop, quadratic1, hpos, h1, simplex1.update, simplex1.finish, GSL_SUCCESS,
    h6, h7, h8, h9]

/-- The iteration on `quadratic1` from such a simplex, for any tolerance and any iteration
bound: no exception, and the stored vector ends at the second vertex, which is not `0`. -/
theorem iterate_loop_at_minimum (tol : double) (max_iter fuel iter : Nat) (a : ℚ)
    (b : double) (f : fitness_vector) (ha : a ≠ 0) :
    ∃ a1 f1, a1 ≠ 0 ∧ |a1| ≤ |a| ∧
      (iterate_loop nmsimplex1 tol max_iter fuel iter
        ⟨.val 0, .val 0, .val a, .val (a * a), .val 0⟩
        ⟨quadratic1, [b], f, 1⟩).par = ⟨quadratic1, [.val a1], f1, 1⟩ ∧
      (iterate_loop nmsimplex1 tol max_iter fuel iter
        ⟨.val 0, .val 0, .val a, .val (a * a), .val 0⟩
        ⟨quadratic1, [b], f, 1⟩).s = ⟨.val 0, .val 0, .val a1, .val (a1 * a1), .val 0⟩ ∧
      (iterate_loop nmsimplex1 tol max_iter fuel iter
        ⟨.val 0, .val 0, .val a, .val (a * a), .val 0⟩
        ⟨quadratic1, [b], f, 1⟩).raised = none := by
  have hne : -a / 2 ≠ 0 := by
    intro h
    apply ha
    linarith
  have habs : |-a / 2| ≤ |a| := by
    rw [neg_div, abs_neg, abs_div]
    have : (0 : ℚ) ≤ |a| := abs_nonneg a
    rw [abs_of_pos (by norm_num : (0 : ℚ) < 2)]
    linarith
  have hit : nmsimplex1.iterate = nmsimplex1_iterate := rfl
  induction fuel generalizing iter a b f with
  | zero =>
    unfold iterate_loop
    simp only [hit, nmsimplex1_iterate_at_minimum a b f ha]
    refine ⟨-a / 2, [.val (-a / 2 * (-a / 2))], hne, habs, ?_, ?_, ?_⟩ <;>
      split_ifs <;> rfl
  | succ n ih =>
    have hne2 : -(-a / 2) / 2 ≠ 0 := by
      intro h
      apply ha
      linarith
    have habs2 : |-(-a / 2) / 2| ≤ |-a / 2| := by
      rw [neg_div (2 : ℚ) (-a / 2), abs_neg, abs_div (-a / 2) 2]
      have : (0 : ℚ) ≤ |-a / 2| := abs_nonneg _
      rw [abs_of_pos (by norm_num : (0 : ℚ) < 2)]
      linarith
    obtain ⟨a1, f1, h1, h2, h3, h4, h5⟩ :=
      ih (iter + 1) (-a / 2) (.val (-a / 2)) [.val (-a / 2 * (-a / 2))] hne hne2 habs2
    unfold iterate_loop
    simp only [hit, nmsimplex1_iterate_at_minimum a b f ha]
    split_ifs
    · exact ⟨-a / 2, [.val (-a / 2 * (-a / 2))], hne, habs, rfl, rfl, rfl⟩
    · exact ⟨a1, f1, h1, le_trans h2 habs, h3, h4, h5⟩
    · exact ⟨-a / 2, [.val (-a / 2 * (-a / 2))], hne, habs, rfl, rfl, rfl⟩

/-- Initialisation of the one-dimensional minimiser on `pop_at_minimum`: the objective is
evaluated at `0` and at the step size. -/
theorem nmsimplex1_set_at_minimum (step : ℚ) :
    (nmsimplex1.set (cont_size_of pop_at_minimum.problem) (start_point pop_at_minimum)
      (List.replicate (cont_size_of pop_at_minimum.problem) (.val step))).run
        (initial_params pop_at_minimum)
      = (.ok ⟨.val 0, .val 0, .val step, .val (step * step), .val 0⟩,
          ⟨quadratic1, [.val step], [.val (step * step)], 1⟩,
          [Event.objfun [.val 0], Event.objfun [.val step]]) := by
  simp [pop_at_minimum, quadratic1, cont_size_of, size_type_sub, SIZE_BITS, nmsimplex1,
    nmsimplex1_set, FnEval.run, initial_params, start_point, gsl_nm_wrapper, fill_cont,
    std_copy, population.get_individual, population.get_best_idx, best_from, List.range,
    List.range.loop]

/-- The search on `pop_at_minimum` with the one-dimensional minimiser, for every
configuration whose step size is a number other than `0`: the stored vector ends at a
point other than `0`, while the best vertex of the minimiser is `0`. -/
theorem minimize_at_minimum_general (max_iter : Nat) (tol : double) (step : ℚ)
    (hs : step ≠ 0) :
    ∃ a, a ≠ 0 ∧ |a| ≤ |step| ∧
      (minimize (gsl_nm.mk max_iter tol (.val step)) nmsimplex1 pop_at_minimum).par.x
        = [.val a] ∧
      nmsimplex1.x (minimize (gsl_nm.mk max_iter tol (.val step)) nmsimplex1
        pop_at_minimum).s = [.val 0] ∧
      (minimize (gsl_nm.mk max_iter tol (.val step)) nmsimplex1 pop_at_minimum).raised
        = none := by
  obtain ⟨a1, f1, h1, h2, h3, h4, h5⟩ := iterate_loop_at_minimum tol max_iter
    max_iter 0 step (.val step) [.val (step * step)] hs
  refine ⟨a1, h1, h2, ?_, ?_, ?_⟩
  · unfold minimize
    simp only [nmsimplex1_set_at_minimum, h3]
  · unfold minimize
    simp only [nmsimplex1_set_at_minimum, h4]
    rfl
  · unfold minimize
    simp only [nmsimplex1_set_at_minimum, h5]

/-- What `evolve` does on `pop_at_minimum` with the one-dimensional minimiser, for every
configuration with step size 1: it returns normally, and replaces the best individual
`[0]` by `[a]` for some `a` other than `0`, while the best vertex of the minimiser at
loop termination is `[0]`. -/
theorem evolve_at_minimum (max_iter : Nat) (tol : double) :
    ∃ a : ℚ, a ≠ 0 ∧
      (minimize (gsl_nm.mk max_iter tol (.val 1)) nmsimplex1 pop_at_minimum).par.x
        = [.val a] ∧
      nmsimplex1.x (minimize (gsl_nm.mk max_iter tol (.val 1)) nmsimplex1 pop_at_minimum).s
        = [.val 0] ∧
      ((gsl_nm.mk max_iter tol (.val 1)).evolve nmsimplex1 all_ok pop_at_minimum).result
        = .ok () ∧
      replaced ((gsl_nm.mk max_iter tol (.val 1)).evolve nmsimplex1 all_ok
        pop_at_minimum).trace = [(0, [.val a])] ∧
      ((gsl_nm.mk max_iter tol (.val 1)).evolve nmsimplex1 all_ok pop_at_minimum).pop
        = ⟨quadratic1, [⟨[.val a], [.val (a * a)]⟩]⟩ := by
  obtain ⟨a, ha, habs, hx, hs, hr⟩ :=
    minimize_at_minimum_general max_iter tol 1 one_ne_zero
  have habs1 : |a| ≤ 1 := by simpa using habs
  have hlo : -10 ≤ a := by
    have := neg_abs_le a
    linarith
  have hhi : a ≤ 10 := by
    have := le_abs_self a
    linarith
  have hproj : project_bounds pop_at_minimum.problem.get_lb pop_at_minimum.problem.get_ub
      (cont_size_of pop_at_minimum.problem)
      (minimize (gsl_nm.mk max_iter tol (.val 1)) nmsimplex1 pop_at_minimum).par.x
        = [.val a] := by
    rw [hx]
    have hc : cont_size_of pop_at_minimum.problem = 1 := by decide
    rw [hc]
    show project_bounds [.val (-10)] [.val 10] 1 [.val a] = [.val a]
    rw [project_bounds_singleton,
      (clamp_spec (.val (-10)) (.val 10) a (by norm_num)).2.2 hlo hhi]
  obtain ⟨_, hok, _⟩ := evolve_search_done (gsl_nm.mk max_iter tol (.val 1)) nmsimplex1
    all_ok pop_at_minimum (by decide) rfl rfl (by decide) rfl rfl rfl hr
  have hrep := evolve_replaced_ok (gsl_nm.mk max_iter tol (.val 1)) nmsimplex1 all_ok
    pop_at_minimum (by decide) rfl rfl (by decide) rfl rfl rfl hr
  have hb : pop_at_minimum.get_best_idx = 0 := by decide
  rw [hproj, hb] at hrep hok
  obtain ⟨hres, hpop⟩ := hok [.val (a * a)] (by simp [pop_at_minimum, quadratic1])
  refine ⟨a, ha, hx, hs, hres, hrep, ?_⟩
  rw [hpop]
  simp [pop_at_minimum]

/-! ### An objective function that throws, and a NaN trial point -/

/-- The search on `pop_guarded` with the one-dimensional minimiser and step size 1, for
every iteration bound and tolerance: the initialisation evaluates the objective at the
starting point `10`, then at `11`, outside the bounds, where the objective function
throws `value_error`; the exception leaves the search. -/
theorem minimize_guarded (max_iter : Nat) (tol : double) :
    (minimize (gsl_nm.mk max_iter tol (.val 1)) nmsimplex1 pop_guarded).raised
      = some .value_error ∧
    (minimize (gsl_nm.mk max_iter tol (.val 1)) nmsimplex1 pop_guarded).trace
      = [Event.objfun [.val 10], Event.objfun [.val 11]] := by
  simp [pop_guarded, guarded1, cont_size_of, size_type_sub, SIZE_BITS,
    minimize, nmsimplex1, nmsimplex1_set, FnEval.run, initial_params, start_point,
    gsl_nm_wrapper, fill_cont, std_copy, population.get_individual,
    population.get_best_idx, best_from, List.range, List.range.loop]
  norm_num [FnEval.run, gsl_nm_wrapper, fill_cont, List.range, List.range.loop]

/-- On a non-empty population with a supported problem, for every outcome of the three
allocations, provided no exception leaves the search: each handle is released exactly
once when it was acquired and never otherwise; every release comes before the
replacement, which is the last effect; and if at least one allocation fails the call
raises `bad_alloc`, its only effects are the three allocation attempts and the releases,
and the population is the one before the call. -/
theorem evolve_handles_released {σ : Type} (alg : gsl_nm) (T : fminimizer_type σ)
    (mem : Handle → Bool) (pop : population) (hne : pop.size ≠ 0)
    (hf : pop.problem.get_f_dimension = 1) (hc : pop.problem.get_c_dimension = 0)
    (hcont : cont_size_of pop.problem ≠ 0)
    (hr : (minimize alg T pop).raised = none) :
    (∀ h, (alg.evolve T mem pop).trace.count (Event.free h) = if mem h = true then 1 else 0) ∧
    (∀ h, (alg.evolve T mem pop).trace.count (Event.alloc h true)
      = if mem h = true then 1 else 0) ∧
    (∃ pre post, (alg.evolve T mem pop).trace = pre ++ post ∧
      (∀ h, mem h = true → Event.free h ∈ pre) ∧
      (∀ e ∈ pre, ∀ idx v, e ≠ Event.set_x idx v) ∧
      (∀ e ∈ post, ∃ idx v, e = Event.set_x idx v)) ∧
    (mem Handle.x = false ∨ mem Handle.ss = false ∨ mem Handle.s = false →
      (alg.evolve T mem pop).result = .error .bad_alloc ∧
      (alg.evolve T mem pop).pop = pop ∧
      ∀ e ∈ (alg.evolve T mem pop).trace, e.is_handle = true) := by
  by_cases hall : mem Handle.x = true ∧ mem Handle.ss = true ∧ mem Handle.s = true
  · obtain ⟨hx, hss, hs⟩ := hall
    obtain ⟨htr, _, _⟩ := evolve_search_done alg T mem pop hne hf hc hcont hx hss hs hr
    obtain ⟨_, _, hsearch, _⟩ := minimize_inv alg T pop
    obtain ⟨c1, c2, c3⟩ := search_trace_count _ hsearch
    refine ⟨?_, ?_, ?_, ?_⟩
    · intro h
      rw [htr]
      simp only [List.count_append, c1]
      cases h <;> simp [hx, hss, hs, List.count_cons]
    · intro h
      rw [htr]
      simp only [List.count_append, c2]
      cases h <;> simp [hx, hss, hs, List.count_cons]
    · refine ⟨_, _, htr, ?_, ?_, ?_⟩
      · intro h _
        cases h <;> simp
      · intro e he idx v hev
        subst hev
        simp only [List.mem_append, List.mem_cons, List.mem_singleton] at he
        rcases he with (he | he) | he
        · simp at he
        · exact c3 idx v he
        · simp at he
      · intro e he
        exact ⟨_, _, List.mem_singleton.mp he⟩
    · intro h
      rcases h with h | h | h
      · rw [hx] at h; cases h
      · rw [hss] at h; cases h
      · rw [hs] at h; cases h
  · have hres := evolve_alloc_failure alg T mem pop hne hf hc hcont hall
    obtain ⟨r1, r2, r3⟩ := hres
    refine ⟨?_, ?_, ?_, ?_⟩
    · intro h
      rw [r3]
      cases h <;> cases hx : mem Handle.x <;> cases hss : mem Handle.ss <;>
        cases hs : mem Handle.s <;> simp [cleanup, List.count_cons]
    · intro h
      rw [r3]
      cases h <;> cases hx : mem Handle.x <;> cases hss : mem Handle.ss <;>
        cases hs : mem Handle.s <;> simp [cleanup, List.count_cons]
    · refine ⟨_, [], by rw [List.append_nil], ?_, ?_, ?_⟩
      · intro h hm
        rw [r3]
        cases h <;> simp [cleanup, hm]
      · intro e he idx v hev
        subst hev
        rw [r3] at he
        cases hx : mem Handle.x <;> cases hss : mem Handle.ss <;>
          cases hs : mem Handle.s <;> simp [cleanup, hx, hss, hs] at he
      · intro e he
        cases he
    · intro _
      refine ⟨r1, r2, ?_⟩
      intro e he
      rw [r3] at he
      cases hx : mem Handle.x <;> cases hss : mem Handle.ss <;>
        cases hs : mem Handle.s <;> simp [cleanup, hx, hss, hs] at he <;>
        (try rcases he with he | he | he | he | he | he) <;> (try subst he) <;>
        (try rfl)

/-! ## The claims -/

/-- C1, as stated, fails: with `max_iter = -1`, a positive tolerance and a positive step
size, the constructor does not succeed (the conversion of `max_iter` throws a negative
overflow); and with `max_iter = -1` and a zero tolerance the failure is that same
conversion error, not `value_error`. -/
theorem gsl_nm_ctor_negative_max_iter :
    INT_MIN ≤ -1 ∧ (-1 : Int) ≤ INT_MAX ∧ double.val 0 < double.val 1 ∧
    gsl_nm.gsl_nm (-1) (.val 1) (.val 1) = .error .negative_overflow ∧
    (∀ a, gsl_nm.gsl_nm (-1) (.val 1) (.val 1) ≠ .ok a) ∧
    gsl_nm.gsl_nm (-1) (.val 0) (.val 1) ≠ .error .value_error := by
  refine ⟨by decide, by decide, by norm_num, rfl, ?_, ?_⟩
  · intro a h
    have h1 : gsl_nm.gsl_nm (-1) (.val 1) (.val 1) = .error .negative_overflow := rfl
    rw [h1] at h
    cases h
  · intro h
    have h1 : gsl_nm.gsl_nm (-1) (.val 0) (.val 1) = .error .negative_overflow := rfl
    rw [h1] at h
    cases h

/-- C1, amended: for every `max_iter` of type `int` that is not negative, the
constructor succeeds (storing the three values) when `tol > 0` and `step_size > 0`, and
fails with `value_error` when `tol <= 0` or `step_size <= 0`; for every negative
`max_iter` it fails with the negative-overflow error of the numeric conversion, whatever
`tol` and `step_size` are. -/
theorem gsl_nm_ctor_contract (max_iter : Int) (tol step_size : double)
    (hmax : max_iter ≤ INT_MAX) :
    (0 ≤ max_iter → .val 0 < tol → .val 0 < step_size →
      gsl_nm.gsl_nm max_iter tol step_size = .ok ⟨max_iter.toNat, tol, step_size⟩) ∧
    (0 ≤ max_iter → tol ≤ .val 0 ∨ step_size ≤ .val 0 →
      gsl_nm.gsl_nm max_iter tol step_size = .error .value_error) ∧
    (max_iter < 0 → gsl_nm.gsl_nm max_iter tol step_size = .error .negative_overflow) := by
  have hsz : ¬ max_iter > (SIZE_MAX : Int) := by
    have h1 : INT_MAX ≤ (SIZE_MAX : Int) := by decide
    have h2 := le_trans hmax h1
    omega
  refine ⟨?_, ?_, ?_⟩
  · intro h0 ht hs
    have h0' : ¬ max_iter < 0 := by omega
    simp [gsl_nm.gsl_nm, numeric_cast_size_t, h0', hsz, double.not_le_of_lt ht,
      double.not_le_of_lt hs]
  · intro h0 h
    have h0' : ¬ max_iter < 0 := by omega
    rcases h with h | h
    · simp [gsl_nm.gsl_nm, numeric_cast_size_t, h0', hsz, h]
    · by_cases ht : tol ≤ .val 0
      · simp [gsl_nm.gsl_nm, numeric_cast_size_t, h0', hsz, ht]
      · simp [gsl_nm.gsl_nm, numeric_cast_size_t, h0', hsz, ht, h]
  · intro h
    simp [gsl_nm.gsl_nm, numeric_cast_size_t, h]

/-- Witness for `gsl_nm_ctor_contract`: the configuration `(200, 1e-6, 1)` is accepted,
`(200, 0, 1)` and `(0, 1, -1)` are rejected with `value_error`, and `(-5, 1, 1)` is
rejected by the numeric conversion. -/
theorem gsl_nm_ctor_contract_witness :
    gsl_nm.gsl_nm 200 (.val (1 / 1000000)) (.val 1)
      = .ok ⟨200, .val (1 / 1000000), .val 1⟩ ∧
    gsl_nm.gsl_nm 200 (.val 0) (.val 1) = .error .value_error ∧
    gsl_nm.gsl_nm 0 (.val 1) (.val (-1)) = .error .value_error ∧
    gsl_nm.gsl_nm (-5) (.val 1) (.val 1) = .error .negative_overflow :=
  ⟨(gsl_nm_ctor_contract 200 (.val (1 / 1000000)) (.val 1) (by decide)).1 (by decide)
      (by norm_num) (by norm_num),
    (gsl_nm_ctor_contract 200 (.val 0) (.val 1) (by decide)).2.1 (by decide)
      (Or.inl (by norm_num)),
    (gsl_nm_ctor_contract 0 (.val 1) (.val (-1)) (by decide)).2.1 (by decide)
      (Or.inr (by norm_num)),
    (gsl_nm_ctor_contract (-5) (.val 1) (.val 1) (by decide)).2.2 (by decide)⟩

/-- C9: on an empty population, whatever the configuration, the minimiser, the outcome of
allocations and the problem (multi-objective, constrained and all-integer problems
included), `evolve` returns without error, with no effect at all (no allocation, no
objective evaluation, no iteration, no replacement), and the population is the same,
still empty. -/
theorem evolve_empty_population {σ : Type} (alg : gsl_nm) (T : fminimizer_type σ)
    (mem : Handle → Bool) (pop : population) (hempty : pop.size = 0) :
    (alg.evolve T mem pop).result = .ok () ∧ (alg.evolve T mem pop).trace = [] ∧
    (alg.evolve T mem pop).pop = pop ∧ (alg.evolve T mem pop).pop.size = 0 := by
  simp [gsl_nm.evolve, hempty]

/-- Witness for `evolve_empty_population`: empty populations on a two-objective problem, on
a constrained problem and on an all-integer problem. -/
theorem evolve_empty_population_witness :
    (default_config.evolve nmsimplex1 all_ok ⟨biobjective, []⟩).result = .ok () ∧
    (default_config.evolve nmsimplex1 all_ok ⟨biobjective, []⟩).trace = [] ∧
    (default_config.evolve nmsimplex1 all_ok ⟨constrained, []⟩).pop.size = 0 ∧
    (default_config.evolve nmsimplex1 minimizer_fails ⟨all_integer, []⟩).result = .ok () :=
  ⟨(evolve_empty_population default_config nmsimplex1 all_ok ⟨biobjective, []⟩ rfl).1,
    (evolve_empty_population default_config nmsimplex1 all_ok ⟨biobjective, []⟩ rfl).2.1,
    (evolve_empty_population default_config nmsimplex1 all_ok ⟨constrained, []⟩ rfl).2.2.2,
    (evolve_empty_population default_config nmsimplex1 minimizer_fails
      ⟨all_integer, []⟩ rfl).1⟩

/-- C5: on a non-empty population whose problem has an objective dimension other than 1,
or a constraint dimension other than 0, or an integer dimension equal to the full
dimension, `evolve` fails with `value_error` with no effect at all (no objective
evaluation, no allocation, no replacement), and the population is the one before the
call. -/
theorem evolve_unsupported_problem {σ : Type} (alg : gsl_nm) (T : fminimizer_type σ)
    (mem : Handle → Bool) (pop : population) (hne : pop.size ≠ 0)
    (h : pop.problem.get_f_dimension ≠ 1 ∨ pop.problem.get_c_dimension ≠ 0 ∨
      pop.problem.get_i_dimension = pop.problem.get_dimension) :
    (alg.evolve T mem pop).result = .error .value_error ∧
    (alg.evolve T mem pop).trace = [] ∧ (alg.evolve T mem pop).pop = pop := by
  by_cases hf : pop.problem.get_f_dimension = 1
  · by_cases hc : pop.problem.get_c_dimension = 0
    · have hi : pop.problem.get_i_dimension = pop.problem.get_dimension := by
        rcases h with h | h | h
        · exact absurd hf h
        · exact absurd hc h
        · exact h
      have h0 : cont_size_of pop.problem = 0 := by
        unfold cont_size_of
        rw [hi]
        exact size_type_sub_self _
      simp [gsl_nm.evolve, hne, hf, hc, h0]
    · simp [gsl_nm.evolve, hne, hf, hc]
  · simp [gsl_nm.evolve, hne, hf]

/-- Witness for `evolve_unsupported_problem`: one-individual populations on a
two-objective problem, on a constrained problem and on an all-integer problem. -/
theorem evolve_unsupported_problem_witness :
    (default_config.evolve nmsimplex1 all_ok
      ⟨biobjective, [⟨[.val 0], [.val 0, .val 0]⟩]⟩).result = .error .value_error ∧
    (default_config.evolve nmsimplex1 all_ok
      ⟨constrained, [⟨[.val 0], [.val 0]⟩]⟩).trace = [] ∧
    (default_config.evolve nmsimplex1 all_ok
      ⟨all_integer, [⟨[.val 1, .val 2], [.val 5]⟩]⟩).result = .error .value_error :=
  ⟨(evolve_unsupported_problem default_config nmsimplex1 all_ok
      ⟨biobjective, [⟨[.val 0], [.val 0, .val 0]⟩]⟩ (by decide) (Or.inl (by decide))).1,
    (evolve_unsupported_problem default_config nmsimplex1 all_ok
      ⟨constrained, [⟨[.val 0], [.val 0]⟩]⟩ (by decide) (Or.inr (Or.inl (by decide)))).2.1,
    (evolve_unsupported_problem default_config nmsimplex1 all_ok
      ⟨all_integer, [⟨[.val 1, .val 2], [.val 5]⟩]⟩ (by decide) (Or.inr (Or.inr rfl))).1⟩

/-- C8, evaluated on the code at a failing input: on `pop_guarded` (one individual at the
upper bound `10` of a problem whose objective function throws `value_error` outside the
bounds), with the one-dimensional simplex minimiser, step size 1, three successful
allocations and any iteration bound and tolerance, the initialisation of the minimiser
evaluates the objective at `10` and then at `11`, where it throws.  The exception leaves
`evolve`: the call raises `value_error`, the three handles were acquired and none of them
is released, and nothing is replaced. -/
theorem evolve_leaks_handles_on_exception (max_iter : Nat) (tol : double) :
    ((gsl_nm.mk max_iter tol (.val 1)).evolve nmsimplex1 all_ok pop_guarded).result
      = .error .value_error ∧
    ((gsl_nm.mk max_iter tol (.val 1)).evolve nmsimplex1 all_ok pop_guarded).trace
      = [Event.alloc Handle.x true, Event.alloc Handle.ss true, Event.alloc Handle.s true,
          Event.objfun [.val 10], Event.objfun [.val 11]] ∧
    (∀ h, ((gsl_nm.mk max_iter tol (.val 1)).evolve nmsimplex1 all_ok pop_guarded).trace.count
      (Event.free h) = 0) ∧
    ((gsl_nm.mk max_iter tol (.val 1)).evolve nmsimplex1 all_ok pop_guarded).pop
      = pop_guarded := by
  obtain ⟨hr, htr⟩ := minimize_guarded max_iter tol
  obtain ⟨h1, h2, h3⟩ := evolve_search_raises (gsl_nm.mk max_iter tol (.val 1)) nmsimplex1
    all_ok pop_guarded (by decide) rfl rfl (by decide) rfl rfl rfl .value_error hr
  rw [htr] at h3
  refine ⟨h1, h3, ?_, h2⟩
  intro h
  rw [h3]
  cases h <;> decide

/-- C7: whenever `evolve` returns without error, the population has the same size and the
same problem as before, every individual at an index other than the index that was best
before the call is unchanged, every replacement performed targets that best index, and
there is exactly one replacement (none when the population is empty). -/
theorem evolve_frame {σ : Type} (alg : gsl_nm) (T : fminimizer_type σ)
    (mem : Handle → Bool) (pop : population)
    (hok : (alg.evolve T mem pop).result = .ok ()) :
    (alg.evolve T mem pop).pop.size = pop.size ∧
    (alg.evolve T mem pop).pop.problem = pop.problem ∧
    (∀ i, i ≠ pop.get_best_idx →
      (alg.evolve T mem pop).pop.container[i]? = pop.container[i]?) ∧
    (∀ r ∈ replaced (alg.evolve T mem pop).trace, r.1 = pop.get_best_idx) ∧
    (replaced (alg.evolve T mem pop).trace).length = if pop.size = 0 then 0 else 1 := by
  by_cases hne : pop.size = 0
  · simp [gsl_nm.evolve, hne, replaced]
  · by_cases hf : pop.problem.get_f_dimension = 1
    swap
    · simp [gsl_nm.evolve, hne, hf] at hok
    by_cases hc : pop.problem.get_c_dimension = 0
    swap
    · simp [gsl_nm.evolve, hne, hf, hc] at hok
    by_cases hcont : cont_size_of pop.problem = 0
    · simp [gsl_nm.evolve, hne, hf, hc, hcont] at hok
    by_cases hall : mem Handle.x = true ∧ mem Handle.ss = true ∧ mem Handle.s = true
    swap
    · rw [(evolve_alloc_failure alg T mem pop hne hf hc hcont hall).1] at hok
      cases hok
    obtain ⟨hx, hss, hs⟩ := hall
    cases hr : (minimize alg T pop).raised with
    | some e =>
      rw [(evolve_search_raises alg T mem pop hne hf hc hcont hx hss hs e hr).1] at hok
      cases hok
    | none =>
      obtain ⟨_, hgood, hbad⟩ := evolve_search_done alg T mem pop hne hf hc hcont hx hss hs hr
      have hrep := evolve_replaced_ok alg T mem pop hne hf hc hcont hx hss hs hr
      cases ho : pop.problem.objfun
          (project_bounds pop.problem.get_lb pop.problem.get_ub (cont_size_of pop.problem)
            (minimize alg T pop).par.x) with
      | error e =>
        rw [(hbad e ho).1] at hok
        cases hok
      | ok f =>
        have hpop := (hgood f ho).2
        refine ⟨?_, ?_, ?_, ?_, ?_⟩
        · rw [hpop]; simp [population.size]
        · rw [hpop]
        · intro i hi
          rw [hpop]
          simp [List.getElem?_set, Ne.symm hi]
        · intro r hr1
          rw [hrep] at hr1
          rw [List.mem_singleton.mp hr1]
        · rw [hrep]; simp [hne]

/-- Witness for `evolve_frame`: on the two-individual population `pop_shifted`, whose best
individual is at index 1, one iteration of the search keeps two individuals, keeps the
individual at index 0, and performs one replacement. -/
theorem evolve_frame_witness :
    (one_iteration.evolve nmsimplex1 all_ok pop_shifted).result = .ok () ∧
    pop_shifted.get_best_idx = 1 ∧
    (one_iteration.evolve nmsimplex1 all_ok pop_shifted).pop.size = 2 ∧
    (one_iteration.evolve nmsimplex1 all_ok pop_shifted).pop.container[0]?
      = pop_shifted.container[0]? ∧
    (replaced (one_iteration.evolve nmsimplex1 all_ok pop_shifted).trace).length = 1 :=
  ⟨(evolve_ok one_iteration nmsimplex1 all_ok pop_shifted (by decide) rfl rfl (by decide)
      rfl rfl rfl shifted1_total).1,
    by decide,
    (evolve_frame one_iteration nmsimplex1 all_ok pop_shifted
      (evolve_ok one_iteration nmsimplex1 all_ok pop_shifted (by decide) rfl rfl (by decide)
        rfl rfl rfl shifted1_total).1).1,
    (evolve_frame one_iteration nmsimplex1 all_ok pop_shifted
      (evolve_ok one_iteration nmsimplex1 all_ok pop_shifted (by decide) rfl rfl (by decide)
        rfl rfl rfl shifted1_total).1).2.2.1 0 (by decide),
    (evolve_frame one_iteration nmsimplex1 all_ok pop_shifted
      (evolve_ok one_iteration nmsimplex1 all_ok pop_shifted (by decide) rfl rfl (by decide)
        rfl rfl rfl shifted1_total).1).2.2.2.2⟩

/-- C2, evaluated on the code at a failing input: on the population `pop_mixed` (one
continuous and one integer variable, best individual `(1, 7)`), for every configuration
and every minimiser, the vector passed to the replacement has integer suffix `[0]`, while
the integer suffix of the best individual before the call is `[7]`: `std::copy` writes the
integer part at the beginning of the stored vector, where the callback overwrites it, and
the integer positions keep the zeros of `resize`. -/
theorem evolve_integer_suffix_lost {σ : Type} (alg : gsl_nm) (T : fminimizer_type σ) :
    cont_size_of pop_mixed.problem = 1 ∧
    (pop_mixed.get_individual pop_mixed.get_best_idx).cur_x.drop 1 = [.val 7] ∧
    (initial_params pop_mixed).x = [.val 7, .val 0] ∧
    ∃ v, replaced (alg.evolve T all_ok pop_mixed).trace = [(0, v)] ∧
      v.drop 1 = [.val 0] := by
  have hc : cont_size_of pop_mixed.problem = 1 := by decide
  have hb : pop_mixed.get_best_idx = 0 := by decide
  have hinit : (initial_params pop_mixed).x = [.val 7, .val 0] := by
    simp [initial_params, hc, hb, pop_mixed, mixed2, population.get_individual, std_copy]
  refine ⟨hc, by rw [hb]; rfl, hinit, ?_⟩
  refine ⟨_, evolve_replaced_ok alg T all_ok pop_mixed (by decide) rfl rfl (by decide)
    rfl rfl rfl (minimize_total alg T pop_mixed mixed2_total) |>.trans (by rw [hb]), ?_⟩
  have h1 := project_bounds_drop pop_mixed.problem.get_lb pop_mixed.problem.get_ub
    (cont_size_of pop_mixed.problem) (minimize alg T pop_mixed).par.x
  have h2 := (minimize_inv alg T pop_mixed).2.1
  rw [hc] at h1 h2
  rw [hc, h1, h2, hinit]
  rfl

/-- C10, evaluated on the code at a failing input: the configuration `(0, 1e-6, 1)` is
accepted by the constructor, and with it one call of `evolve` on `pop_at_minimum`
performs exactly one iteration of the minimiser, whatever the minimiser: more than
`max_iter = 0`. -/
theorem evolve_zero_max_iter_iterates_once {σ : Type} (T : fminimizer_type σ) :
    gsl_nm.gsl_nm 0 (.val (1 / 1000000)) (.val 1) = .ok ⟨0, .val (1 / 1000000), .val 1⟩ ∧
    iterations ((gsl_nm.mk 0 (.val (1 / 1000000)) (.val 1)).evolve T all_ok
      pop_at_minimum).trace = 1 := by
  constructor
  · norm_num [gsl_nm.gsl_nm, numeric_cast_size_t, SIZE_MAX, SIZE_BITS]
  · have hr := minimize_total (gsl_nm.mk 0 (.val (1 / 1000000)) (.val 1)) T pop_at_minimum
      quadratic1_total
    obtain ⟨htr, _, _⟩ := evolve_search_done (gsl_nm.mk 0 (.val (1 / 1000000)) (.val 1)) T
      all_ok pop_at_minimum (by decide) rfl rfl (by decide) rfl rfl rfl hr
    obtain ⟨h2, h1⟩ := minimize_iterations (gsl_nm.mk 0 (.val (1 / 1000000)) (.val 1)) T
      pop_at_minimum
    have h1' := h1 hr
    have h3 : max 1 (gsl_nm.mk 0 (.val (1 / 1000000)) (.val 1)).m_max_iter = 1 := rfl
    rw [h3] at h2
    rw [htr]
    have h4 : iterations [Event.alloc Handle.x true, Event.alloc Handle.ss true,
        Event.alloc Handle.s true] = 0 := rfl
    have h5 : iterations [Event.free Handle.x, Event.free Handle.ss, Event.free Handle.s]
        = 0 := rfl
    rw [iterations_append, iterations_append, iterations_append, h4, h5]
    have h6 : ∀ i v, iterations [Event.set_x i v] = 0 := fun _ _ => rfl
    rw [h6]
    omega

/-- C3, evaluated on the code at a failing input: on the one-individual population at the
minimum `0` of `quadratic1`, with the one-dimensional simplex minimiser, step size 1 and
any iteration bound and tolerance, the vector passed to the replacement is `[a]` for some
`a` other than `0`, whereas the Bounds Projector applied to the best vertex of the
minimiser at loop termination gives `[0]`.  With one iteration the objective is evaluated
at `0`, `1`, `-1`, `-1/2` in this order and the vector passed is `[-1/2]`, the last point
evaluated. -/
theorem evolve_writes_back_last_evaluation :
    (∀ (max_iter : Nat) (tol : double), ∃ a : ℚ, a ≠ 0 ∧
      replaced ((gsl_nm.mk max_iter tol (.val 1)).evolve nmsimplex1 all_ok
        pop_at_minimum).trace = [(0, [.val a])] ∧
      project_bounds pop_at_minimum.problem.get_lb pop_at_minimum.problem.get_ub
        (cont_size_of pop_at_minimum.problem)
        (nmsimplex1.x (minimize (gsl_nm.mk max_iter tol (.val 1)) nmsimplex1
          pop_at_minimum).s) = [.val 0]) ∧
    replaced (one_iteration.evolve nmsimplex1 all_ok pop_at_minimum).trace
      = [(0, [.val (-1 / 2)])] ∧
    last_objfun (minimize one_iteration nmsimplex1 pop_at_minimum).trace
      = some [.val (-1 / 2)] := by
  refine ⟨?_, ?_, ?_⟩
  · intro max_iter tol
    obtain ⟨a, ha, _, hs, _, hrep, _⟩ := evolve_at_minimum max_iter tol
    refine ⟨a, ha, hrep, ?_⟩
    rw [hs]
    have hc : cont_size_of pop_at_minimum.problem = 1 := by decide
    rw [hc]
    show project_bounds [.val (-10)] [.val 10] 1 [.val 0] = [.val 0]
    rw [project_bounds_singleton,
      (clamp_spec (.val (-10)) (.val 10) 0 (by norm_num)).2.2 (by norm_num) (by norm_num)]
  · obtain ⟨a, _, hx, _, _, hrep, _⟩ := evolve_at_minimum 1 (.val (1 / 1000000))
    have hx1 : (minimize one_iteration nmsimplex1 pop_at_minimum).par.x = [.val a] := hx
    rw [minimize_at_minimum.2.1] at hx1
    have hrep1 : replaced (one_iteration.evolve nmsimplex1 all_ok pop_at_minimum).trace
        = [(0, [.val a])] := hrep
    rw [hrep1, ← hx1]
  · rw [minimize_at_minimum.1]
    rfl

/-- C4, evaluated on the code at a failing input: on the one-individual population at the
minimum `0` of the convex quadratic `quadratic1` (bounds `-10` and `10`), with the
one-dimensional simplex minimiser, step size 1 and any iteration bound and tolerance,
`evolve` returns without error and the fitness of the previously best individual, `0`
before the call, is strictly greater after it.  With one iteration the new fitness is
`1/4`. -/
theorem evolve_worsens_best_individual :
    (∀ (max_iter : Nat) (tol : double),
      ((gsl_nm.mk max_iter tol (.val 1)).evolve nmsimplex1 all_ok pop_at_minimum).result
        = .ok () ∧
      (pop_at_minimum.get_individual pop_at_minimum.get_best_idx).fitness = .val 0 ∧
      (pop_at_minimum.get_individual pop_at_minimum.get_best_idx).fitness <
        (((gsl_nm.mk max_iter tol (.val 1)).evolve nmsimplex1 all_ok
          pop_at_minimum).pop.get_individual pop_at_minimum.get_best_idx).fitness) ∧
    ((one_iteration.evolve nmsimplex1 all_ok pop_at_minimum).pop.get_individual 0).fitness
      = .val (1 / 4) := by
  have hb : pop_at_minimum.get_best_idx = 0 := by decide
  have h0 : (pop_at_minimum.get_individual 0).fitness = .val 0 := by
    simp [pop_at_minimum, population.get_individual, individual_type.fitness]
  refine ⟨?_, ?_⟩
  · intro max_iter tol
    obtain ⟨a, ha, _, _, hres, _, hpop⟩ := evolve_at_minimum max_iter tol
    rw [hb, h0, hpop]
    refine ⟨hres, rfl, ?_⟩
    have : 0 < a * a := mul_self_pos.mpr ha
    simpa [population.get_individual, individual_type.fitness] using this
  · obtain ⟨a, _, hx, _, _, _, hpop⟩ := evolve_at_minimum 1 (.val (1 / 1000000))
    have hx1 : (minimize one_iteration nmsimplex1 pop_at_minimum).par.x = [.val a] := hx
    rw [minimize_at_minimum.2.1] at hx1
    have ha : a = -1 / 2 := by
      have := List.head_eq_of_cons_eq hx1
      exact (double.val.inj this).symm
    have hpop1 : (one_iteration.evolve nmsimplex1 all_ok pop_at_minimum).pop
        = ⟨quadratic1, [⟨[.val a], [.val (a * a)]⟩]⟩ := hpop
    rw [hpop1, ha]
    norm_num [population.get_individual, individual_type.fitness]

end pagmo
